import Mathlib

/-!
Verification of the capture and correlation engine of the llama.cpp UI metrics
browser extension (`injected.js` stream parser, `background.js` conversation
correlator and aggregation engine).

Modelling conventions, used uniformly below:
* JavaScript numbers are modelled as rationals (`ℚ`); `NaN`/`Infinity` inputs
  are outside the model, matching the `Number.isFinite` guards in the code,
  which map a non-finite number to `null` before any arithmetic is performed.
* A possibly absent / possibly `null` JavaScript value is an `Option`.
* JavaScript string truthiness (`""` is falsy) and number truthiness
  (`0` is falsy) are modelled explicitly by the `jsOr*` helpers.
* `Array.prototype.sort` is stable (ECMA-262); any stable sort with the same
  comparator computes the same output list, so it is modelled by a structural
  stable insertion sort (`sortStable`).
* `String.prototype.localeCompare` and the default `Array.sort()` string
  comparison are modelled by code-point lexicographic comparison (`strLe`),
  which agrees with them on the ASCII label/identifier strings produced by
  this program.
* A JavaScript `Set` of strings is modelled by its contents kept as a sorted
  `Nodup` list: the only consumers of such a set in this program are its size
  and its *sorted* joined element list, both insertion-order independent.
-/

namespace LlamaMetrics

/-! ## JavaScript primitives -/

/-- `Math.round`: JavaScript rounds half-way cases toward `+∞`, exactly as
Mathlib `round` does (`round x = ⌊x + 1/2⌋`). -/
def jsRound (x : ℚ) : ℤ := round x

/-- `roundMs` from `injected.js`: `Math.round(x * 1000) / 1000` for a number,
`null` otherwise (the `Option.map` below). -/
def roundMs (x : ℚ) : ℚ := (jsRound (x * 1000) : ℚ) / 1000

/-- `roundMs` lifted to a possibly-null value. -/
def roundMsOpt (x : Option ℚ) : Option ℚ := x.map roundMs

/-- `round2` from `background.js`: `Math.round(x * 100) / 100`. -/
def round2 (x : ℚ) : ℚ := (jsRound (x * 100) : ℚ) / 100

/-- `round2` on a possibly-null value (`toFiniteNumber` returning `null`
propagates `null`). -/
def round2Opt (x : Option ℚ) : Option ℚ := x.map round2

/-- `toFiniteNumber` from `background.js`. On the `ℚ` model every present
number is finite, so this is the identity on `Option ℚ`. -/
def toFiniteNumber (x : Option ℚ) : Option ℚ := x

/-- `safePct` from `background.js`. -/
def safePct (numerator denominator : ℚ) : ℚ :=
  if denominator ≤ 0 then 0 else max 0 (min 100 (numerator / denominator * 100))

/-- `average` from `background.js`: `null` when the count is zero. -/
def average (sum : ℚ) (count : ℕ) : Option ℚ :=
  if count = 0 then none else some (sum / count)

/-- `toPositiveInt` from `background.js`: `Math.floor`, kept only if `> 0`. -/
def toPositiveInt (x : Option ℚ) : Option ℤ :=
  x.bind fun q => if 0 < ⌊q⌋ then some ⌊q⌋ else none

/-- JavaScript string truthiness filter: `some s` with `s ≠ ""`, else `none`. -/
def truthyS (x : Option String) : Option String :=
  match x with
  | some s => if s = "" then none else some s
  | none => none

/-- JavaScript `a || b` on nullable strings (empty string is falsy; the
second operand is returned unchanged). -/
def jsOrS (a b : Option String) : Option String :=
  match a with
  | some s => if s = "" then b else some s
  | none => b

/-- JavaScript `a || d` with a string literal default. -/
def jsOrSD (a : Option String) (d : String) : String :=
  match a with
  | some s => if s = "" then d else s
  | none => d

/-- JavaScript `a || null` on a nullable string: normalizes `""` to `null`. -/
def jsToNullS (a : Option String) : Option String := jsOrS a none

/-- JavaScript `a || d` on nullable numbers (`0` is falsy). -/
def jsOrQD (a : Option ℚ) (d : ℚ) : ℚ :=
  match a with
  | some q => if q = 0 then d else q
  | none => d

/-- JavaScript `a || null` on a nullable number: normalizes `0` to `null`. -/
def jsToNullQ (a : Option ℚ) : Option ℚ :=
  match a with
  | some q => if q = 0 then none else some q
  | none => none

/-- JavaScript `a || b` on nullable numbers (`0` is falsy). -/
def jsOrQ (a b : Option ℚ) : Option ℚ :=
  match a with
  | some q => if q = 0 then b else some q
  | none => b

/-! ## Code-point string comparison

Models the default `Array.sort()` string ordering and `localeCompare` on the
ASCII strings this program sorts. Works on `List Char` so that the kernel can
evaluate it on concrete inputs. -/

/-- Lexicographic `≤` on character lists by code point. -/
def lexLe : List Char → List Char → Bool
  | [], _ => true
  | _ :: _, [] => false
  | a :: as, b :: bs =>
    if a.val.toNat < b.val.toNat then true
    else if b.val.toNat < a.val.toNat then false
    else lexLe as bs

/-- Lexicographic `≤` on strings by code point. -/
def strLe (a b : String) : Bool := lexLe a.data b.data

/-! ## Stable sort

`Array.prototype.sort` with comparator `c` is stable (ECMA-262): elements that
compare equal keep their input order. For a total, transitive ordering there is
exactly one stably sorted permutation of a list, so the structural insertion
sort below computes the same list as the JavaScript engine does. Elements are
consumed left to right; a new element is placed after every element it does not
strictly precede. -/

/-- Insert `x` after all elements `y` of an already sorted list with
`le y x = true` (so after all earlier elements that tie with `x`). -/
def insStable (le : α → α → Bool) (x : α) : List α → List α
  | [] => [x]
  | y :: ys => if le y x then y :: insStable le x ys else x :: y :: ys

/-- Stable sort by repeated insertion, consuming input left to right. -/
def sortStable (le : α → α → Bool) (l : List α) : List α :=
  l.foldl (fun acc x => insStable le x acc) []

/-- Insert a string into a sorted `Nodup` list, keeping it sorted and without
duplicates (the contents model of a JavaScript `Set` of strings). -/
def insertSortedStr (x : String) : List String → List String
  | [] => [x]
  | y :: ys =>
    if x = y then y :: ys
    else if strLe x y then x :: y :: ys
    else y :: insertSortedStr x ys

/-! ## Insertion-ordered maps

A JavaScript `Map` preserves insertion order; `map.set` on an existing key
keeps its position. It is modelled as an association list: updating an
existing key rewrites it in place, a new key is appended. -/

section GroupFold

variable {κ ρ α : Type _} [DecidableEq κ]

/-- Association-list lookup (first, and with `Nodup` keys only, match). -/
def alookup (k : κ) : List (κ × α) → Option α
  | [] => none
  | (k2, v) :: t => if k2 = k then some v else alookup k t

/-- One step of the JS grouping idiom
`if (!m.has(key)) m.set(key, init(key)); update(m.get(key), r)`. -/
def groupUpd (keyOf : ρ → κ) (init : κ → α) (upd : α → ρ → α)
    (m : List (κ × α)) (r : ρ) : List (κ × α) :=
  let k := keyOf r
  if (alookup k m).isSome then
    m.map fun p => (p.1, if p.1 = k then upd p.2 r else p.2)
  else
    m ++ [(k, upd (init k) r)]

/-- Fold a record list into an insertion-ordered grouped map. -/
def groupFold (keyOf : ρ → κ) (init : κ → α) (upd : α → ρ → α)
    (l : List ρ) : List (κ × α) :=
  l.foldl (groupUpd keyOf init upd) []

/-- Remove the first pair with key `k` from an association list. -/
def removeKey (k : κ) : List (κ × α) → List (κ × α)
  | [] => []
  | p :: t => if p.1 = k then t else p :: removeKey k t

end GroupFold

/-! ## Record data model

The JSON `CompletionRecord` produced by `injected.js` and consumed by
`background.js`. Nested objects reached through optional chaining
(`r?.req?.scenario_labels?.input_mode`) are modelled by plain structures with
`Option` leaves; an absent intermediate object behaves exactly like an object
whose leaves are all absent. -/

/-- The `timings` object of an SSE chunk (`§6`): all fields optional. -/
structure ChunkTimings where
  cache_n : Option ℚ := none
  prompt_n : Option ℚ := none
  prompt_ms : Option ℚ := none
  predicted_n : Option ℚ := none
  predicted_ms : Option ℚ := none
  prompt_per_second : Option ℚ := none
  predicted_per_second : Option ℚ := none
  deriving DecidableEq

/-- A parsed `chat.completion.chunk` object, with `choices[0]` flattened:
`delta_content` is `choices[0].delta.content`, `delta_reasoning_content` is
`choices[0].delta.reasoning_content`, and `finish_reason` is
`choices[0].finish_reason ?? null`. -/
structure Chunk where
  id : Option String := none
  created : Option ℚ := none
  model : Option String := none
  system_fingerprint : Option String := none
  delta_content : Option String := none
  delta_reasoning_content : Option String := none
  finish_reason : Option String := none
  timings : Option ChunkTimings := none
  deriving DecidableEq

/-- One significant SSE `data:` payload, after line framing and JSON parsing:
`skipLine` covers a line without a `data:` marker, an empty payload, a payload
that fails JSON parsing, or an object whose `object` field is not
`"chat.completion.chunk"` — all silently skipped by the parser loop. -/
inductive SseItem where
  | skipLine : SseItem
  | doneMarker : SseItem
  | chunk : Chunk → SseItem
  deriving DecidableEq

/-- The `{ predicted_n, predicted_ms }` reasoning boundary snapshot. -/
structure Boundary where
  predicted_n : Option ℚ
  predicted_ms : Option ℚ
  deriving DecidableEq

/-- The mutable locals of `parseSseCloneAndEmitRecord` that the `data:` line
loop updates (wall-clock marks are threaded separately, see `ClientTiming`). -/
structure ParseState where
  completionId : Option String := none
  completionCreated : Option ℚ := none
  completionModel : Option String := none
  systemFingerprint : Option String := none
  reasoningBoundary : Option Boundary := none
  stopChunk : Option Chunk := none
  lastTimingsAtStop : Option ChunkTimings := none
  stopFinishReason : Option String := none
  lastTimedChunk : Option Chunk := none
  sawDoneMarker : Bool := false
  responseText : String := ""
  reasoningText : String := ""
  deriving DecidableEq

/-- `MAX_CAPTURED_TEXT_CHARS` from `injected.js`. -/
def maxCapturedTextChars : ℕ := 200000

/-- The text-accumulation step of the parser loop: append only while below the
character budget, clipped to the remaining budget. -/
def appendCapped (acc add : String) : String :=
  if acc.length < maxCapturedTextChars then
    acc ++ String.mk (add.data.take (maxCapturedTextChars - acc.length))
  else acc

/-- `clipCapturedText` from `injected.js` at the default budget. -/
def clipCapturedText (s : Option String) : Option String :=
  s.map fun t => String.mk (t.data.take maxCapturedTextChars)

/-- The response `timings` sub-object of an emitted record. -/
structure OutTimings where
  cache_n : Option ℚ := none
  prompt_n : Option ℚ := none
  prompt_ms : Option ℚ := none
  predicted_n : Option ℚ := none
  predicted_ms : Option ℚ := none
  prompt_tps : Option ℚ := none
  predicted_tps : Option ℚ := none
  deriving DecidableEq

/-- The `derived` reasoning/content split of an emitted record. -/
structure OutDerived where
  reasoning_n : Option ℚ := none
  reasoning_ms : Option ℚ := none
  content_n : Option ℚ := none
  content_ms : Option ℚ := none
  deriving DecidableEq

/-- The `client_timing` sub-object: four wall-clock marks and six deltas. -/
structure ClientTiming where
  request_start_ms : Option ℚ := none
  response_headers_ms : Option ℚ := none
  first_stream_chunk_ms : Option ℚ := none
  stop_chunk_ms : Option ℚ := none
  duration_request_to_headers_ms : Option ℚ := none
  duration_request_to_first_stream_chunk_ms : Option ℚ := none
  duration_headers_to_first_stream_chunk_ms : Option ℚ := none
  duration_first_stream_chunk_to_stop_ms : Option ℚ := none
  duration_headers_to_stop_ms : Option ℚ := none
  duration_request_to_stop_ms : Option ℚ := none
  deriving DecidableEq

/-- The `guardrails.output_length_estimate` sub-object. -/
structure OutputLengthEstimate where
  output_tokens_estimate : Option ℚ := none
  output_chars_estimate : Option ℚ := none
  deriving DecidableEq

/-- The `guardrails` sub-object. -/
structure Guardrails where
  stop_reason_category : Option String := none
  output_length_estimate : OutputLengthEstimate := {}
  deriving DecidableEq

/-- The `phase_boundary` sub-object of an emitted record. -/
structure PhaseBoundary where
  reasoning_final_predicted_n : Option ℚ := none
  reasoning_final_predicted_ms : Option ℚ := none
  deriving DecidableEq

/-- The `resp` side of a record. -/
structure Resp where
  id : Option String := none
  created : Option ℚ := none
  model : Option String := none
  fingerprint : Option String := none
  choice_index : ℚ := 0
  finish_reason : Option String := none
  timings : OutTimings := {}
  phase_boundary : Option PhaseBoundary := none
  derived : OutDerived := {}
  client_timing : ClientTiming := {}
  guardrails : Guardrails := {}
  deriving DecidableEq

/-- `req.scenario_labels`. -/
structure ScenarioLabels where
  input_mode : Option String := none
  current_user_text_size_bucket : Option String := none
  file_size_bucket : Option String := none
  image_size_bucket : Option String := none
  file_kind_set : Option String := none
  runtime_bucket : Option String := none
  deriving DecidableEq

/-- `req.input_composition` (only the fields the core reads). -/
structure InputComposition where
  messages_by_role_count_user : Option ℚ := none
  messages_by_role_count_assistant : Option ℚ := none
  messages_by_role_count_tool : Option ℚ := none
  image_count : Option ℚ := none
  text_bytes_total : Option ℚ := none
  file_bytes_total : Option ℚ := none
  deriving DecidableEq

/-- `req.payload_signals`. -/
structure PayloadSignals where
  current_user_text_bytes : Option ℚ := none
  file_bytes_total : Option ℚ := none
  deriving DecidableEq

/-- `req.prompt_identity`. -/
structure PromptIdentity where
  prompt_hash : Option String := none
  message_structure_hash : Option String := none
  deriving DecidableEq

/-- The `req` side of a record (request metadata computed before parsing). -/
structure Req where
  model : Option String := none
  messages_count : Option ℚ := none
  promptText : Option String := none
  has_document : Bool := false
  has_images : Bool := false
  has_files : Bool := false
  scenario_labels : ScenarioLabels := {}
  input_composition : InputComposition := {}
  payload_signals : PayloadSignals := {}
  prompt_identity : PromptIdentity := {}
  deriving DecidableEq

/-- A full `CompletionRecord` as posted by the parser / stored by the
background worker. `chain_id`, `turn_number` and `session_id` are absent until
the background worker stamps them. -/
structure StoredRecord where
  trace_id : Option String := none
  promptText : Option String := none
  responseText : Option String := none
  reasoning_text : Option String := none
  captured_at_ms : Option ℚ := none
  ui_origin : Option String := none
  endpoint : Option String := none
  streamed : Bool := false
  session_id : Option String := none
  chain_id : Option String := none
  turn_number : Option ℚ := none
  req : Option Req := none
  resp : Option Resp := none
  deriving DecidableEq

/-! ## Stream Parser (`injected.js`, `parseSseCloneAndEmitRecord`)

The byte/line framing layer (`TextDecoder` + buffer splitting on `"\n"` +
`data:` prefix check + JSON parse) turns the stream into the sequence of
significant payloads modelled by `List SseItem`; a trailing partial line
without a newline is never processed, exactly as in the code. -/

/-- `categorizeFinishReason` from `injected.js`. -/
def categorizeFinishReason (finishReason : Option String) : String :=
  if finishReason = some "stop" then "completed"
  else if finishReason = some "length" then "truncated_length"
  else if finishReason = some "content_filter" then "filtered"
  else if finishReason = some "tool_calls" then "tool_calls"
  else if finishReason = none then "unknown"
  else "other"

/-- The body of the `data:` line loop for one significant payload. Returns the
updated state and whether the loop `break`s (a terminal chunk was found). -/
def processItem (s : ParseState) : SseItem → ParseState × Bool
  | .skipLine => (s, false)
  | .doneMarker =>
    let s1 := { s with sawDoneMarker := true }
    match s1.stopChunk, s1.lastTimedChunk with
    | none, some c =>
      ({ s1 with
          stopChunk := some c
          lastTimingsAtStop := c.timings
          stopFinishReason := some (c.finish_reason.getD "done") }, true)
    | _, _ => (s1, false)
  | .chunk c =>
    let s1 := { s with
      completionId := jsToNullS (jsOrS s.completionId c.id)
      completionCreated := jsToNullQ (jsOrQ s.completionCreated c.created)
      completionModel := jsToNullS (jsOrS s.completionModel c.model)
      systemFingerprint := jsToNullS (jsOrS s.systemFingerprint c.system_fingerprint) }
    let s2 := match c.delta_content with
      | some t => { s1 with responseText := appendCapped s1.responseText t }
      | none => s1
    let s3 := match c.delta_reasoning_content with
      | some t => { s2 with reasoningText := appendCapped s2.reasoningText t }
      | none => s2
    let s4 := if c.timings.isSome then { s3 with lastTimedChunk := some c } else s3
    let s5 := match c.delta_reasoning_content, c.timings with
      | some _, some t =>
        { s4 with reasoningBoundary := some ⟨t.predicted_n, t.predicted_ms⟩ }
      | _, _ => s4
    match c.finish_reason with
    | some fr =>
      if fr = "" then (s5, false)
      else
        ({ s5 with
            stopChunk := some c
            lastTimingsAtStop := c.timings
            stopFinishReason := some fr }, true)
    | none => (s5, false)

/-- The `data:` line loop: consume items until a terminal chunk `break`s or the
input ends. Returns the final state and the unconsumed remainder. -/
def runItems (s : ParseState) : List SseItem → ParseState × List SseItem
  | [] => (s, [])
  | it :: rest =>
    match processItem s it with
    | (s2, true) => (s2, rest)
    | (s2, false) => runItems s2 rest

/-- The post-loop degraded-terminal promotion
(`(!stopChunk || !lastTimingsAtStop) && lastTimedChunk && sawDoneMarker`). -/
def finalizeState (s : ParseState) : ParseState :=
  if s.stopChunk.isNone || s.lastTimingsAtStop.isNone then
    match s.lastTimedChunk, s.sawDoneMarker with
    | some c, true =>
      { s with
          stopChunk := some c
          lastTimingsAtStop := c.timings
          stopFinishReason := some (c.finish_reason.getD "done") }
    | _, _ => s
  else s

/-- The six client-side latency deltas (`injected.js` lines 1201-1216). The
stop mark falls back to the current time when the loop never recorded one. -/
def computeClientTiming (requestStartMs responseHeadersMs firstStreamChunkAtMs
    stopChunkAtMs : Option ℚ) (nowMs : ℚ) : ClientTiming :=
  let stopMs : ℚ := stopChunkAtMs.getD nowMs
  { request_start_ms := requestStartMs
    response_headers_ms := responseHeadersMs
    first_stream_chunk_ms := firstStreamChunkAtMs
    stop_chunk_ms := some stopMs
    duration_request_to_headers_ms :=
      match requestStartMs, responseHeadersMs with
      | some a, some b => some (max 0 (b - a))
      | _, _ => none
    duration_request_to_first_stream_chunk_ms :=
      match requestStartMs, firstStreamChunkAtMs with
      | some a, some b => some (max 0 (b - a))
      | _, _ => none
    duration_headers_to_first_stream_chunk_ms :=
      match responseHeadersMs, firstStreamChunkAtMs with
      | some a, some b => some (max 0 (b - a))
      | _, _ => none
    duration_first_stream_chunk_to_stop_ms :=
      match firstStreamChunkAtMs with
      | some a => some (max 0 (stopMs - a))
      | none => none
    duration_headers_to_stop_ms :=
      match responseHeadersMs with
      | some a => some (max 0 (stopMs - a))
      | none => none
    duration_request_to_stop_ms :=
      match requestStartMs with
      | some a => some (max 0 (stopMs - a))
      | none => none }

/-- The record constructed by `parseSseCloneAndEmitRecord` once a terminal
chunk with timings `timingsAtStop` has been found (`injected.js` lines
1187-1288). -/
def emitBody (traceId uiOrigin : String) (requestMeta : Req) (s : ParseState)
    (timingsAtStop : ChunkTimings)
    (requestStartMs responseHeadersMs firstStreamChunkAtMs stopChunkAtMs : Option ℚ)
    (nowMs : ℚ) : StoredRecord :=
  let totalPredN := timingsAtStop.predicted_n
  let totalPredMs := timingsAtStop.predicted_ms
  let rPredN : ℚ := (s.reasoningBoundary.bind (·.predicted_n)).getD 0
  let rPredMs : ℚ := (s.reasoningBoundary.bind (·.predicted_ms)).getD 0
  let cPredN : Option ℚ := totalPredN.map fun t => max 0 (t - rPredN)
  let cPredMs : Option ℚ := totalPredMs.map fun t => max 0 (t - rPredMs)
  let finishReasonFinal : String := s.stopFinishReason.getD "stop"
  let outputTokensEstimate : Option ℚ := totalPredN
  let outputCharsEstimate : Option ℚ :=
    outputTokensEstimate.map fun n => ((jsRound (n * 4) : ℤ) : ℚ)
  { trace_id := some traceId
    promptText := clipCapturedText requestMeta.promptText
    responseText := some s.responseText
    reasoning_text := if s.reasoningText.length = 0 then none else some s.reasoningText
    captured_at_ms := some nowMs
    ui_origin := some uiOrigin
    endpoint := some "/v1/chat/completions"
    streamed := true
    session_id := none
    chain_id := none
    turn_number := none
    req := some requestMeta
    resp := some
      { id := s.completionId
        created := s.completionCreated
        model := s.completionModel
        fingerprint := s.systemFingerprint
        choice_index := 0
        finish_reason := some finishReasonFinal
        timings :=
          { cache_n := timingsAtStop.cache_n
            prompt_n := timingsAtStop.prompt_n
            prompt_ms := roundMsOpt timingsAtStop.prompt_ms
            predicted_n := timingsAtStop.predicted_n
            predicted_ms := roundMsOpt timingsAtStop.predicted_ms
            prompt_tps := timingsAtStop.prompt_per_second
            predicted_tps := timingsAtStop.predicted_per_second }
        phase_boundary := s.reasoningBoundary.map fun b =>
          { reasoning_final_predicted_n := b.predicted_n
            reasoning_final_predicted_ms := roundMsOpt b.predicted_ms }
        derived :=
          { reasoning_n := some (if s.reasoningBoundary.isSome then rPredN else 0)
            reasoning_ms := some (if s.reasoningBoundary.isSome then roundMs rPredMs else 0)
            content_n := if s.reasoningBoundary.isSome then cPredN else totalPredN
            content_ms :=
              if s.reasoningBoundary.isSome then roundMsOpt cPredMs
              else roundMsOpt totalPredMs }
        client_timing := computeClientTiming requestStartMs responseHeadersMs
          firstStreamChunkAtMs stopChunkAtMs nowMs
        guardrails :=
          { stop_reason_category := some (categorizeFinishReason (some finishReasonFinal))
            output_length_estimate :=
              { output_tokens_estimate := outputTokensEstimate
                output_chars_estimate := outputCharsEstimate } } } }

/-- Record emission (`injected.js` lines 1182-1291): `none` when no terminal
chunk with timing data was found (case "No STOP chunk found"). -/
def emitRecord (traceId uiOrigin : String) (requestMeta : Req) (s : ParseState)
    (requestStartMs responseHeadersMs firstStreamChunkAtMs stopChunkAtMs : Option ℚ)
    (nowMs : ℚ) : Option StoredRecord :=
  match s.stopChunk, s.lastTimingsAtStop with
  | some _, some timingsAtStop =>
    some (emitBody traceId uiOrigin requestMeta s timingsAtStop
      requestStartMs responseHeadersMs firstStreamChunkAtMs stopChunkAtMs nowMs)
  | _, _ => none

/-- Whole-stream parse: run the loop, apply the degraded-terminal promotion,
then emit. -/
def parseSse (traceId uiOrigin : String) (requestMeta : Req) (items : List SseItem)
    (requestStartMs responseHeadersMs firstStreamChunkAtMs stopChunkAtMs : Option ℚ)
    (nowMs : ℚ) : Option StoredRecord :=
  emitRecord traceId uiOrigin requestMeta (finalizeState (runItems {} items).1)
    requestStartMs responseHeadersMs firstStreamChunkAtMs stopChunkAtMs nowMs

/-! ## Conversation Correlator (`background.js`)

`Date.now()`, the fresh chain id (`makeChainId`) and the sender-tab origin
(`new URL(sender.tab.url).origin`) are external effects, passed in as
parameters; `getTabChainState` / `setTabChainState` are modelled by the
explicit `Option ChainState` in / `ChainState` out. -/

/-- `CHAIN_STATE_IDLE_RESET_MS`. -/
def chainStateIdleResetMs : ℚ := 30 * 60 * 1000

/-- `CHAIN_DUPLICATE_PROMPT_WINDOW_MS`. -/
def chainDuplicatePromptWindowMs : ℚ := 2 * 60 * 1000

/-- The per-tab chain state object written by `assignChainMetadata` and read
back by `shouldRotateChain` (fields are `Option` because the stored object is
re-validated field by field with `typeof` checks on read). -/
structure ChainState where
  chain_id : Option String := none
  turn_number : Option ℚ := none
  last_seen_ms : Option ℚ := none
  last_user_count : Option ℚ := none
  last_messages_count : Option ℚ := none
  last_prompt_hash : Option String := none
  ui_origin : Option String := none
  endpoint : Option String := none
  deriving DecidableEq

/-- The result of `getConversationSignals`. -/
structure Signals where
  userCount : Option ℤ
  assistantCount : ℤ
  toolCount : ℤ
  messagesCount : Option ℤ
  promptHash : Option String
  uiOrigin : Option String
  endpoint : Option String
  deriving DecidableEq

/-- `getConversationSignals` from `background.js` (with `getCountsFromRecord`
inlined: an absent `req`/`input_composition` yields the empty counts object,
i.e. all-`none` leaves). -/
def getConversationSignals (r : StoredRecord) : Signals :=
  { userCount := toPositiveInt (r.req.bind (·.input_composition.messages_by_role_count_user))
    assistantCount :=
      (toPositiveInt (r.req.bind (·.input_composition.messages_by_role_count_assistant))).getD 0
    toolCount :=
      (toPositiveInt (r.req.bind (·.input_composition.messages_by_role_count_tool))).getD 0
    messagesCount := toPositiveInt (r.req.bind (·.messages_count))
    promptHash := r.req.bind (·.prompt_identity.prompt_hash)
    uiOrigin := r.ui_origin
    endpoint := r.endpoint }

/-- `looksLikeFirstTurn` from `background.js`. -/
def looksLikeFirstTurn (s : Signals) : Bool :=
  if s.userCount ≠ some 1 then false
  else if s.assistantCount > 0 || s.toolCount > 0 then false
  else
    match s.messagesCount with
    | none => true
    | some m => decide (m ≤ 4)

/-- `toPositiveInt` applied to an already-integer value (the state fields the
correlator itself wrote); `Math.floor` of an integer is itself. -/
def toPositiveIntQ (x : Option ℚ) : Option ℤ := toPositiveInt x

/-- `shouldRotateChain` from `background.js`. `senderOrigin` is the
precomputed `new URL(sender.tab.url).origin` (or `null` when unavailable). -/
def shouldRotateChain (state : Option ChainState) (signals : Signals) (ts : ℚ)
    (senderOrigin : Option String) : Bool :=
  match state with
  | none => true
  | some st =>
    let lastSeenMs := st.last_seen_ms
    let idle : Bool :=
      match lastSeenMs with
      | some l => decide (ts - l > chainStateIdleResetMs)
      | none => false
    if idle then true
    else
      let prevOrigin := st.ui_origin
      let currOrigin := jsOrS signals.uiOrigin senderOrigin
      let originChanged : Bool :=
        match truthyS prevOrigin, truthyS currOrigin with
        | some p, some c => decide (p ≠ c)
        | _, _ => false
      if originChanged then true
      else
        let prevUserCount := toPositiveIntQ st.last_user_count
        let regressed : Bool :=
          match signals.userCount, prevUserCount with
          | some u, some p => decide (u < p)
          | _, _ => false
        if regressed then true
        else if looksLikeFirstTurn signals then
          let samePrompt : Bool :=
            match signals.promptHash, st.last_prompt_hash with
            | some h, some h2 => if h = "" then false else decide (h = h2)
            | _, _ => false
          let nearDuplicate : Bool :=
            samePrompt &&
              match lastSeenMs with
              | some l => decide (ts - l ≤ chainDuplicatePromptWindowMs)
              | none => false
          !nearDuplicate
        else false

/-- `assignChainMetadata` from `background.js` as a pure function: takes the
prior tab state, the current time and a freshly minted chain id, returns the
assigned `chain_id`, `turn_number` and the new state written for the tab. -/
def assignChainMetadata (record : StoredRecord) (state : Option ChainState)
    (senderOrigin : Option String) (nowMs : ℚ) (freshChainId : String) :
    String × ℤ × ChainState :=
  let ts : ℚ := record.captured_at_ms.getD nowMs
  let signals := getConversationSignals record
  let rotate := shouldRotateChain state signals ts senderOrigin
  let chainId0 : Option String := if rotate then none else state.bind (·.chain_id)
  let turnNumber0 : ℤ :=
    if rotate then 1
    else max 1 ((toPositiveIntQ (state.bind (·.turn_number))).getD 0 + 1)
  let final : String × ℤ :=
    match truthyS chainId0 with
    | some c => (c, turnNumber0)
    | none => (freshChainId, 1)
  (final.1, final.2,
    { chain_id := some final.1
      turn_number := some (final.2 : ℚ)
      last_seen_ms := some ts
      last_user_count := signals.userCount.map fun n => (n : ℚ)
      last_messages_count := signals.messagesCount.map fun n => (n : ℚ)
      last_prompt_hash := signals.promptHash
      ui_origin := jsToNullS signals.uiOrigin
      endpoint := jsToNullS signals.endpoint })

/-- The record-stamping performed by `addRecord` (`background.js`): set
`session_id`, backfill `captured_at_ms` (`record.captured_at_ms || Date.now()`),
then let `assignChainMetadata` write `chain_id` / `turn_number`. Everything
else in the stored record is the posted record unchanged. -/
def addRecordStamp (record : StoredRecord) (sid : String) (state : Option ChainState)
    (senderOrigin : Option String) (nowMs : ℚ) (freshChainId : String) :
    StoredRecord × ChainState :=
  let r1 := { record with session_id := some sid }
  let ts : ℚ := jsOrQD r1.captured_at_ms nowMs
  let r2 := { r1 with captured_at_ms := some ts }
  let m := assignChainMetadata r2 state senderOrigin nowMs freshChainId
  ({ r2 with chain_id := some m.1, turn_number := some (m.2.1 : ℚ) }, m.2.2)

/-! ## Aggregation Engine (`background.js`)

`buildDashboardStats` and `buildScenarioComparisons`. The JS single loop that
feeds both the global summary accumulator and the per-model map is split into
two folds over the same filtered list; the accumulators are independent, so the
results coincide. The sum/count pairs that the code keeps as `...Sum` /
`...Count` field pairs are bundled as `Acc2`. -/

/-- A `...Sum`/`...Count` accumulator pair. -/
structure Acc2 where
  sum : ℚ := 0
  count : ℕ := 0
  deriving DecidableEq

/-- The `if (v !== null) { sum += v; count += 1 }` idiom. -/
def Acc2.push (a : Acc2) (x : Option ℚ) : Acc2 :=
  match x with
  | some v => ⟨a.sum + v, a.count + 1⟩
  | none => a

/-- `average(sum, count)` of an accumulator pair. -/
def Acc2.avg (a : Acc2) : Option ℚ := average a.sum a.count

/-- The `if (capturedAt !== null && (last === null || capturedAt > last))`
maximum-update idiom. -/
def maxOpt (cur x : Option ℚ) : Option ℚ :=
  match x with
  | none => cur
  | some v =>
    match cur with
    | none => some v
    | some c => if v > c then some v else some c

/-- `r?.resp?.timings || {}`. -/
def respTimings (r : StoredRecord) : OutTimings := (r.resp.map (·.timings)).getD {}

/-- `r?.resp?.derived || {}`. -/
def respDerived (r : StoredRecord) : OutDerived := (r.resp.map (·.derived)).getD {}

/-- `r?.resp?.client_timing || {}`. -/
def respClientTiming (r : StoredRecord) : ClientTiming :=
  (r.resp.map (·.client_timing)).getD {}

/-- `r?.resp?.guardrails?.output_length_estimate || {}`. -/
def respOutputLengthEstimate (r : StoredRecord) : OutputLengthEstimate :=
  (r.resp.map (·.guardrails.output_length_estimate)).getD {}

/-- `r?.req?.payload_signals || {}`. -/
def reqPayloadSignals (r : StoredRecord) : PayloadSignals :=
  (r.req.map (·.payload_signals)).getD {}

/-- `r?.req?.model || r?.resp?.model || "unknown"`. -/
def modelOf (r : StoredRecord) : String :=
  jsOrSD (jsOrS (r.req.bind (·.model)) (r.resp.bind (·.model))) "unknown"

/-- `r?.req?.has_document === true`. -/
def hasDocumentOf (r : StoredRecord) : Bool := (r.req.map (·.has_document)).getD false

/-- `r?.req?.has_images === true`. -/
def hasImagesOf (r : StoredRecord) : Bool := (r.req.map (·.has_images)).getD false

/-- `records.filter((r) => r && r.resp && r.req)`. -/
def cleanRecords (records : List StoredRecord) : List StoredRecord :=
  records.filter fun r => r.req.isSome && r.resp.isSome

/-- The global `summaryAcc` of `buildDashboardStats`. -/
structure SummaryAcc where
  predictedTps : Acc2 := {}
  ttftMs : Acc2 := {}
  cacheN : Acc2 := {}
  docCount : ℕ := 0
  imageCount : ℕ := 0
  lastCompletionAtMs : Option ℚ := none
  deriving DecidableEq

/-- One record folded into the global summary accumulator. -/
def summaryStep (a : SummaryAcc) (r : StoredRecord) : SummaryAcc :=
  let timings := respTimings r
  { predictedTps := a.predictedTps.push (toFiniteNumber timings.predicted_tps)
    ttftMs := a.ttftMs.push (toFiniteNumber timings.prompt_ms)
    cacheN := a.cacheN.push (toFiniteNumber timings.cache_n)
    docCount := a.docCount + (if hasDocumentOf r then 1 else 0)
    imageCount := a.imageCount + (if hasImagesOf r then 1 else 0)
    lastCompletionAtMs := maxOpt a.lastCompletionAtMs (toFiniteNumber r.captured_at_ms) }

/-- A per-model accumulator of `buildDashboardStats`. -/
structure ModelAcc where
  completions : ℕ := 0
  promptN : Acc2 := {}
  predictedN : Acc2 := {}
  promptMs : Acc2 := {}
  predictedMs : Acc2 := {}
  promptTps : Acc2 := {}
  predictedTps : Acc2 := {}
  reasoningMs : Acc2 := {}
  contentMs : Acc2 := {}
  cacheN : Acc2 := {}
  docCount : ℕ := 0
  imageCount : ℕ := 0
  lastSeenAtMs : Option ℚ := none
  deriving DecidableEq

/-- One record folded into its model accumulator. -/
def modelStep (a : ModelAcc) (r : StoredRecord) : ModelAcc :=
  let timings := respTimings r
  let derived := respDerived r
  { completions := a.completions + 1
    promptN := a.promptN.push (toFiniteNumber timings.prompt_n)
    predictedN := a.predictedN.push (toFiniteNumber timings.predicted_n)
    promptMs := a.promptMs.push (toFiniteNumber timings.prompt_ms)
    predictedMs := a.predictedMs.push (toFiniteNumber timings.predicted_ms)
    promptTps := a.promptTps.push (toFiniteNumber timings.prompt_tps)
    predictedTps := a.predictedTps.push (toFiniteNumber timings.predicted_tps)
    reasoningMs := a.reasoningMs.push (toFiniteNumber derived.reasoning_ms)
    contentMs := a.contentMs.push (toFiniteNumber derived.content_ms)
    cacheN := a.cacheN.push (toFiniteNumber timings.cache_n)
    docCount := a.docCount + (if hasDocumentOf r then 1 else 0)
    imageCount := a.imageCount + (if hasImagesOf r then 1 else 0)
    lastSeenAtMs := maxOpt a.lastSeenAtMs (toFiniteNumber r.captured_at_ms) }

/-- One row of the `models` table. -/
structure ModelRow where
  model : String
  completions : ℕ
  avg_prompt_n : Option ℚ
  avg_predicted_n : Option ℚ
  avg_ttft_ms : Option ℚ
  avg_predicted_ms : Option ℚ
  avg_prompt_tps : Option ℚ
  avg_predicted_tps : Option ℚ
  avg_reasoning_ms : Option ℚ
  avg_content_ms : Option ℚ
  avg_cache_n : Option ℚ
  doc_request_pct : ℚ
  image_request_pct : ℚ
  last_seen_at_ms : Option ℚ
  deriving DecidableEq

/-- Finalize one per-model accumulator into its row. -/
def modelRowOf (p : String × ModelAcc) : ModelRow :=
  { model := p.1
    completions := p.2.completions
    avg_prompt_n := round2Opt p.2.promptN.avg
    avg_predicted_n := round2Opt p.2.predictedN.avg
    avg_ttft_ms := round2Opt p.2.promptMs.avg
    avg_predicted_ms := round2Opt p.2.predictedMs.avg
    avg_prompt_tps := round2Opt p.2.promptTps.avg
    avg_predicted_tps := round2Opt p.2.predictedTps.avg
    avg_reasoning_ms := round2Opt p.2.reasoningMs.avg
    avg_content_ms := round2Opt p.2.contentMs.avg
    avg_cache_n := round2Opt p.2.cacheN.avg
    doc_request_pct := round2 (safePct p.2.docCount p.2.completions)
    image_request_pct := round2 (safePct p.2.imageCount p.2.completions)
    last_seen_at_ms := p.2.lastSeenAtMs }

/-- The `models` comparator
`(a, b) => b.completions - a.completions || (b.avg_predicted_tps || 0) - (a.avg_predicted_tps || 0)`
as a keep-`a`-before-`b` predicate (comparator value `≤ 0`). -/
def modelRowLe (a b : ModelRow) : Bool :=
  decide (b.completions < a.completions) ||
    (decide (b.completions = a.completions) &&
      decide (jsOrQD b.avg_predicted_tps 0 ≤ jsOrQD a.avg_predicted_tps 0))

/-- The `summary` object of `DashboardStats`. -/
structure Summary where
  total_completions : ℕ
  distinct_models : ℕ
  avg_predicted_tps : Option ℚ
  avg_ttft_ms : Option ℚ
  avg_cache_n : Option ℚ
  last_completion_at_ms : Option ℚ
  document_attached_requests_pct : ℚ
  image_attached_requests_pct : ℚ
  deriving DecidableEq

/-- `DashboardStats`. -/
structure DashboardStats where
  summary : Summary
  models : List ModelRow
  deriving DecidableEq

/-- The per-model grouped accumulators of `buildDashboardStats`, in first-seen
order (a JS `Map`). -/
def perModelOf (records : List StoredRecord) : List (String × ModelAcc) :=
  groupFold modelOf (fun _ => {}) modelStep (cleanRecords records)

/-- `buildDashboardStats` from `background.js`. -/
def buildDashboardStats (records : List StoredRecord) : DashboardStats :=
  let clean := cleanRecords records
  let acc := clean.foldl summaryStep {}
  let models := sortStable modelRowLe ((perModelOf records).map modelRowOf)
  { summary :=
      { total_completions := clean.length
        distinct_models := models.length
        avg_predicted_tps := round2Opt acc.predictedTps.avg
        avg_ttft_ms := round2Opt acc.ttftMs.avg
        avg_cache_n := round2Opt acc.cacheN.avg
        last_completion_at_ms := acc.lastCompletionAtMs
        document_attached_requests_pct := round2 (safePct acc.docCount clean.length)
        image_attached_requests_pct := round2 (safePct acc.imageCount clean.length) }
    models := models }

/-- `initScenarioBucket` (without the label, which the grouped map keeps as the
key) — all sums and counts zero. -/
structure ScenarioBucketAcc where
  count : ℕ := 0
  predictedTps : Acc2 := {}
  ttftMs : Acc2 := {}
  predictedMs : Acc2 := {}
  requestToStopMs : Acc2 := {}
  reasoningMs : Acc2 := {}
  contentMs : Acc2 := {}
  outputTokens : Acc2 := {}
  outputChars : Acc2 := {}
  fileBytes : Acc2 := {}
  userTextBytes : Acc2 := {}
  deriving DecidableEq

/-- `addScenarioRecord` from `background.js`. -/
def addScenarioRecord (acc : ScenarioBucketAcc) (r : StoredRecord) : ScenarioBucketAcc :=
  let timings := respTimings r
  let derived := respDerived r
  let ct := respClientTiming r
  let guard := respOutputLengthEstimate r
  let payload := reqPayloadSignals r
  { count := acc.count + 1
    predictedTps := acc.predictedTps.push (toFiniteNumber timings.predicted_tps)
    ttftMs := acc.ttftMs.push (toFiniteNumber timings.prompt_ms)
    predictedMs := acc.predictedMs.push (toFiniteNumber timings.predicted_ms)
    requestToStopMs := acc.requestToStopMs.push
      (toFiniteNumber ct.duration_request_to_stop_ms)
    reasoningMs := acc.reasoningMs.push (toFiniteNumber derived.reasoning_ms)
    contentMs := acc.contentMs.push (toFiniteNumber derived.content_ms)
    outputTokens := acc.outputTokens.push (toFiniteNumber guard.output_tokens_estimate)
    outputChars := acc.outputChars.push (toFiniteNumber guard.output_chars_estimate)
    fileBytes := acc.fileBytes.push (toFiniteNumber payload.file_bytes_total)
    userTextBytes := acc.userTextBytes.push (toFiniteNumber payload.current_user_text_bytes) }

/-- One row of a scenario breakdown table. -/
structure BucketRow where
  label : String
  count : ℕ
  avg_predicted_tps : Option ℚ
  avg_ttft_ms : Option ℚ
  avg_predicted_ms : Option ℚ
  avg_request_to_stop_ms : Option ℚ
  avg_reasoning_ms : Option ℚ
  avg_content_ms : Option ℚ
  avg_output_tokens : Option ℚ
  avg_output_chars : Option ℚ
  avg_file_bytes : Option ℚ
  avg_user_text_bytes : Option ℚ
  deriving DecidableEq

/-- Finalize one scenario bucket into its row. -/
def bucketRowOf (p : String × ScenarioBucketAcc) : BucketRow :=
  { label := p.1
    count := p.2.count
    avg_predicted_tps := round2Opt p.2.predictedTps.avg
    avg_ttft_ms := round2Opt p.2.ttftMs.avg
    avg_predicted_ms := round2Opt p.2.predictedMs.avg
    avg_request_to_stop_ms := round2Opt p.2.requestToStopMs.avg
    avg_reasoning_ms := round2Opt p.2.reasoningMs.avg
    avg_content_ms := round2Opt p.2.contentMs.avg
    avg_output_tokens := round2Opt p.2.outputTokens.avg
    avg_output_chars := round2Opt p.2.outputChars.avg
    avg_file_bytes := round2Opt p.2.fileBytes.avg
    avg_user_text_bytes := round2Opt p.2.userTextBytes.avg }

/-- The count-descending bucket comparator of `finalizeScenarioBuckets`. -/
def bucketLeCount (a b : BucketRow) : Bool :=
  decide (b.count < a.count) ||
    (decide (b.count = a.count) &&
      decide (jsOrQD b.avg_predicted_tps 0 ≤ jsOrQD a.avg_predicted_tps 0))

/-- The label comparator of `finalizeScenarioBuckets`
(`(a.label || "").localeCompare(b.label || "")`). -/
def bucketLeLabel (a b : BucketRow) : Bool := strLe a.label b.label

/-- `finalizeScenarioBuckets` from `background.js`. -/
def finalizeScenarioBuckets (m : List (String × ScenarioBucketAcc)) (sortByCount : Bool) :
    List BucketRow :=
  sortStable (if sortByCount then bucketLeCount else bucketLeLabel) (m.map bucketRowOf)

/-- `groupScenario` from `background.js` (`keyFn(r) || "unknown"`). -/
def groupScenario (records : List StoredRecord) (keyFn : StoredRecord → String)
    (sortByCount : Bool) : List BucketRow :=
  finalizeScenarioBuckets
    (groupFold (fun r => jsOrSD (some (keyFn r)) "unknown") (fun _ => {})
      addScenarioRecord records)
    sortByCount

/-- The nine breakdown key functions of `buildScenarioComparisons`. -/
def inputModeKey (r : StoredRecord) : String :=
  jsOrSD (r.req.bind (·.scenario_labels.input_mode)) "unknown"

def fileSizeKey (r : StoredRecord) : String :=
  jsOrSD (r.req.bind (·.scenario_labels.file_size_bucket)) "unknown"

def fileKindKey (r : StoredRecord) : String :=
  jsOrSD (r.req.bind (·.scenario_labels.file_kind_set)) "none"

def imageSizeKey (r : StoredRecord) : String :=
  jsOrSD (r.req.bind (·.scenario_labels.image_size_bucket)) "unknown"

def imageCountKey (r : StoredRecord) : String :=
  match toFiniteNumber (r.req.bind (·.input_composition.image_count)) with
  | none => "unknown"
  | some n =>
    if n ≤ 0 then "0"
    else if n = 1 then "1"
    else if n = 2 then "2"
    else if n ≤ 4 then "3-4"
    else "5+"

def userTextSizeKey (r : StoredRecord) : String :=
  jsOrSD (r.req.bind (·.scenario_labels.current_user_text_size_bucket)) "unknown"

def runtimeBucketKey (r : StoredRecord) : String :=
  jsOrSD (r.req.bind (·.scenario_labels.runtime_bucket)) "default_or_unknown"

def stopReasonKey (r : StoredRecord) : String :=
  jsOrSD (r.resp.bind (·.guardrails.stop_reason_category)) "unknown"

def outputLengthKey (r : StoredRecord) : String :=
  match toFiniteNumber (r.resp.bind (·.guardrails.output_length_estimate.output_tokens_estimate)) with
  | none => "unknown"
  | some n =>
    if n ≤ 128 then "0-128"
    else if n ≤ 512 then "129-512"
    else if n ≤ 1024 then "513-1024"
    else "1025+"

/-- A row of the output-length breakdown: the bucket row spread together with
`avg_ms_per_1k_output_tokens`. -/
structure OutputBucketRow extends BucketRow where
  avg_ms_per_1k_output_tokens : Option ℚ
  deriving DecidableEq

/-- The `.map` step appended to the output-length grouping. -/
def outputRowAugment (x : BucketRow) : OutputBucketRow :=
  let msPer1k : Option ℚ :=
    match x.avg_predicted_ms, x.avg_output_tokens with
    | some pm, some ot => if 0 < ot then some (pm / ot * 1000) else none
    | _, _ => none
  { toBucketRow := x, avg_ms_per_1k_output_tokens := round2Opt msPer1k }

/-- One `model_options` entry. -/
structure ModelOption where
  model : String
  count : ℕ
  deriving DecidableEq

/-- `model_options` comparator
(`b.count - a.count || a.model.localeCompare(b.model)` as a `≤ 0` test). -/
def modelOptionLe (a b : ModelOption) : Bool :=
  decide (b.count < a.count) || (decide (b.count = a.count) && strLe a.model b.model)

/-- The per-model record counts of `buildScenarioComparisons` (a JS `Map`). -/
def modelCountsOf (records : List StoredRecord) : List (String × ℕ) :=
  groupFold modelOf (fun _ => (0 : ℕ)) (fun n _ => n + 1) (cleanRecords records)

/-- The sorted `model_options` list. -/
def modelOptionsOf (records : List StoredRecord) : List ModelOption :=
  sortStable modelOptionLe
    ((modelCountsOf records).map fun p => { model := p.1, count := p.2 })

/-- `effectiveModel`: the requested model when present in the data, otherwise
the most frequent one
(`selectedModel && modelCounts.has(selectedModel) ? selectedModel : (modelOptions[0]?.model || null)`). -/
def effectiveModelOf (records : List StoredRecord) (selectedModel : Option String) :
    Option String :=
  match truthyS selectedModel with
  | some m =>
    if (alookup m (modelCountsOf records)).isSome then some m
    else jsToNullS ((modelOptionsOf records).head?.map (·.model))
  | none => jsToNullS ((modelOptionsOf records).head?.map (·.model))

/-- The records of the effective model. -/
def modelRecordsOf (records : List StoredRecord) (selectedModel : Option String) :
    List StoredRecord :=
  match effectiveModelOf records selectedModel with
  | some m => (cleanRecords records).filter fun r => modelOf r = m
  | none => []

/-- One `file_vs_text` comparison row. -/
structure FileVsTextRow where
  captured_at_ms : Option ℚ
  input_mode : String
  file_kind_set : String
  file_bytes_total : Option ℚ
  current_user_text_bytes : Option ℚ
  predicted_tps : Option ℚ
  predicted_ms : Option ℚ
  request_to_stop_ms : Option ℚ
  deriving DecidableEq

/-- The `file_vs_text` row of one record. -/
def fvtRowOf (r : StoredRecord) : FileVsTextRow :=
  { captured_at_ms := jsToNullQ r.captured_at_ms
    input_mode := inputModeKey r
    file_kind_set := fileKindKey r
    file_bytes_total := toFiniteNumber (reqPayloadSignals r).file_bytes_total
    current_user_text_bytes := toFiniteNumber (reqPayloadSignals r).current_user_text_bytes
    predicted_tps := toFiniteNumber (respTimings r).predicted_tps
    predicted_ms := toFiniteNumber (respTimings r).predicted_ms
    request_to_stop_ms := toFiniteNumber (respClientTiming r).duration_request_to_stop_ms }

/-- `file_vs_text` comparator (file bytes descending, `null` as `0`). -/
def fvtLe (a b : FileVsTextRow) : Bool :=
  decide (jsOrQD b.file_bytes_total 0 ≤ jsOrQD a.file_bytes_total 0)

/-- The `file_vs_text` table: map, filter, sort by file bytes descending,
keep the top 50. -/
def fileVsTextOf (records : List StoredRecord) (selectedModel : Option String) :
    List FileVsTextRow :=
  (sortStable fvtLe
      (((modelRecordsOf records selectedModel).map fvtRowOf).filter fun x =>
        x.file_bytes_total.isSome || x.current_user_text_bytes.isSome)).take 50

/-- A prompt-hash group accumulator. The JS `Set` of input modes is modelled by
its contents kept as a sorted `Nodup` list: its only consumers are its `size`
and its sorted, comma-joined element list, both insertion-order independent. -/
structure PromptHashAcc where
  count : ℕ := 0
  inputModes : List String := []
  predTps : Acc2 := {}
  deriving DecidableEq

/-- `r?.req?.prompt_identity?.prompt_hash || null` (a falsy hash is skipped). -/
def hashKeyOf (r : StoredRecord) : Option String :=
  jsToNullS (r.req.bind (·.prompt_identity.prompt_hash))

/-- The hash-keyed pairs actually folded (records whose hash is falsy are
skipped by the `continue`). -/
def hashedPairsOf (records : List StoredRecord) (selectedModel : Option String) :
    List (String × StoredRecord) :=
  (modelRecordsOf records selectedModel).filterMap fun r =>
    (hashKeyOf r).map fun h => (h, r)

/-- One hash-keyed record folded into its group accumulator. -/
def promptHashStep (a : PromptHashAcc) (p : String × StoredRecord) : PromptHashAcc :=
  { count := a.count + 1
    inputModes := insertSortedStr (inputModeKey p.2) a.inputModes
    predTps := a.predTps.push (toFiniteNumber (respTimings p.2).predicted_tps) }

/-- The prompt-hash grouped map. -/
def promptHashMapOf (records : List StoredRecord) (selectedModel : Option String) :
    List (String × PromptHashAcc) :=
  groupFold Prod.fst (fun _ => {}) promptHashStep (hashedPairsOf records selectedModel)

/-- One `prompt_hash_controls` row. `prompt_hash_pfx` is the
`hash.slice(0, 12)` prefix (named `prompt_hash_prefix` in the JS output). -/
structure ControlRow where
  prompt_hash_pfx : String
  requests : ℕ
  scenario_count : ℕ
  scenarios : String
  avg_predicted_tps : Option ℚ
  deriving DecidableEq

/-- Finalize one qualifying prompt-hash group into its control row. -/
def controlRowOf (p : String × PromptHashAcc) : ControlRow :=
  { prompt_hash_pfx := String.mk (p.1.data.take 12)
    requests := p.2.count
    scenario_count := p.2.inputModes.length
    scenarios := String.intercalate ", " p.2.inputModes
    avg_predicted_tps := round2Opt p.2.predTps.avg }

/-- `prompt_hash_controls` comparator (`b.requests - a.requests` as `≤ 0`). -/
def controlLe (a b : ControlRow) : Bool := decide (b.requests ≤ a.requests)

/-- The `prompt_hash_controls` table: keep groups spanning more than one input
mode, sort by request count descending, keep the top 30. -/
def promptHashControlsOf (records : List StoredRecord) (selectedModel : Option String) :
    List ControlRow :=
  (sortStable controlLe
      (((promptHashMapOf records selectedModel).filter fun p =>
          1 < p.2.inputModes.length).map controlRowOf)).take 30

/-- The `ScenarioComparison` output object (`breakdowns` and `comparisons`
flattened into one structure). -/
structure ScenarioComparison where
  selected_model : Option String
  model_options : List ModelOption
  selected_model_record_count : ℕ
  input_mode : List BucketRow
  file_size_bucket : List BucketRow
  file_kind_set : List BucketRow
  image_size_bucket : List BucketRow
  image_count_bucket : List BucketRow
  current_user_text_size_bucket : List BucketRow
  runtime_bucket : List BucketRow
  stop_reason_category : List BucketRow
  output_length_bucket : List OutputBucketRow
  file_vs_text : List FileVsTextRow
  prompt_hash_controls : List ControlRow
  deriving DecidableEq

/-- `buildScenarioComparisons` from `background.js`. -/
def buildScenarioComparisons (records : List StoredRecord)
    (selectedModel : Option String) : ScenarioComparison :=
  let mr := modelRecordsOf records selectedModel
  { selected_model := effectiveModelOf records selectedModel
    model_options := modelOptionsOf records
    selected_model_record_count := mr.length
    input_mode := groupScenario mr inputModeKey true
    file_size_bucket := groupScenario mr fileSizeKey false
    file_kind_set := groupScenario mr fileKindKey true
    image_size_bucket := groupScenario mr imageSizeKey false
    image_count_bucket := groupScenario mr imageCountKey false
    current_user_text_size_bucket := groupScenario mr userTextSizeKey false
    runtime_bucket := groupScenario mr runtimeBucketKey true
    stop_reason_category := groupScenario mr stopReasonKey true
    output_length_bucket := (groupScenario mr outputLengthKey false).map outputRowAugment
    file_vs_text := fileVsTextOf records selectedModel
    prompt_hash_controls := promptHashControlsOf records selectedModel }

/-! ## Claim-statement predicates

Named conclusions of the claim theorems below, so that each claim's statement
and witness stay readable. -/

/-- The count-column sum of a breakdown table. -/
def rowCountSum (rows : List BucketRow) : ℕ := (rows.map (·.count)).sum

/-- The count-column sum of the output-length breakdown table. -/
def outRowCountSum (rows : List OutputBucketRow) : ℕ :=
  (rows.map (·.toBucketRow.count)).sum

/-- C7's conclusion about an emitted record's `client_timing` object built
from marks `a` (request start), `b` (headers), `f` (first stream chunk): the
stop mark is always known; each delta is known exactly when both of its
endpoint marks are known; each known delta equals
`max 0 (later - earlier)` of its endpoints and is therefore non-negative. -/
def clientTimingDeltasOk (a b f : Option ℚ) (ct : ClientTiming) : Prop :=
  ct.request_start_ms = a ∧ ct.response_headers_ms = b ∧
  ct.first_stream_chunk_ms = f ∧ ct.stop_chunk_ms.isSome = true ∧
  (ct.duration_request_to_headers_ms.isSome = true ↔ a.isSome = true ∧ b.isSome = true) ∧
  (ct.duration_request_to_first_stream_chunk_ms.isSome = true ↔
    a.isSome = true ∧ f.isSome = true) ∧
  (ct.duration_headers_to_first_stream_chunk_ms.isSome = true ↔
    b.isSome = true ∧ f.isSome = true) ∧
  (ct.duration_first_stream_chunk_to_stop_ms.isSome = true ↔ f.isSome = true) ∧
  (ct.duration_headers_to_stop_ms.isSome = true ↔ b.isSome = true) ∧
  (ct.duration_request_to_stop_ms.isSome = true ↔ a.isSome = true) ∧
  (∀ x y, a = some x → b = some y →
    ct.duration_request_to_headers_ms = some (max 0 (y - x))) ∧
  (∀ x y, a = some x → f = some y →
    ct.duration_request_to_first_stream_chunk_ms = some (max 0 (y - x))) ∧
  (∀ x y, b = some x → f = some y →
    ct.duration_headers_to_first_stream_chunk_ms = some (max 0 (y - x))) ∧
  (∀ x y, f = some x → ct.stop_chunk_ms = some y →
    ct.duration_first_stream_chunk_to_stop_ms = some (max 0 (y - x))) ∧
  (∀ x y, b = some x → ct.stop_chunk_ms = some y →
    ct.duration_headers_to_stop_ms = some (max 0 (y - x))) ∧
  (∀ x y, a = some x → ct.stop_chunk_ms = some y →
    ct.duration_request_to_stop_ms = some (max 0 (y - x))) ∧
  (∀ v, ct.duration_request_to_headers_ms = some v → 0 ≤ v) ∧
  (∀ v, ct.duration_request_to_first_stream_chunk_ms = some v → 0 ≤ v) ∧
  (∀ v, ct.duration_headers_to_first_stream_chunk_ms = some v → 0 ≤ v) ∧
  (∀ v, ct.duration_first_stream_chunk_to_stop_ms = some v → 0 ≤ v) ∧
  (∀ v, ct.duration_headers_to_stop_ms = some v → 0 ≤ v) ∧
  (∀ v, ct.duration_request_to_stop_ms = some v → 0 ≤ v)

/-- C2's conclusion about an emitted record whose terminal timings carry
`predicted_n = T` and `predicted_ms = M`: the reasoning/content token split
sums exactly to `T`, the millisecond split sums to the recorded
`predicted_ms` up to the stated `roundMs` rounding (one part in a thousand),
and all four split values are non-negative. -/
def derivedSplitOk (T M : ℚ) (resp : Resp) : Prop :=
  resp.timings.predicted_n = some T ∧
  resp.timings.predicted_ms = some (roundMs M) ∧
  (∃ rn cn, resp.derived.reasoning_n = some rn ∧ resp.derived.content_n = some cn ∧
    rn + cn = T ∧ 0 ≤ rn ∧ 0 ≤ cn) ∧
  (∃ rm cm, resp.derived.reasoning_ms = some rm ∧ resp.derived.content_ms = some cm ∧
    |rm + cm - roundMs M| ≤ 1 / 1000 ∧ 0 ≤ rm ∧ 0 ≤ cm)

/-- "The emitted record is built from the timings object `t` of the terminal
chunk, with finish reason `fr`": C1's shape of an emission outcome. -/
def emitsFromTimings (t : ChunkTimings) (fr : String) (o : Option StoredRecord) : Prop :=
  ∃ r resp, o = some r ∧ r.resp = some resp ∧ resp.finish_reason = some fr ∧
    resp.timings.predicted_n = t.predicted_n ∧
    resp.timings.predicted_ms = roundMsOpt t.predicted_ms ∧
    resp.timings.cache_n = t.cache_n

/-- C8's conclusion: stamping a parser-emitted record `r` for storage changes
only the storage annotation `session_id` and the two correlation fields, the
latter to exactly the correlator's output; every payload field of the record
schema is unchanged. -/
def stampFrameOk (r : StoredRecord) (sid : String) (state : Option ChainState)
    (senderOrigin : Option String) (nowMs : ℚ) (freshChainId : String) : Prop :=
  let p := addRecordStamp r sid state senderOrigin nowMs freshChainId
  p.1.trace_id = r.trace_id ∧ p.1.promptText = r.promptText ∧
  p.1.responseText = r.responseText ∧ p.1.reasoning_text = r.reasoning_text ∧
  p.1.captured_at_ms = r.captured_at_ms ∧ p.1.ui_origin = r.ui_origin ∧
  p.1.endpoint = r.endpoint ∧ p.1.streamed = r.streamed ∧
  p.1.req = r.req ∧ p.1.resp = r.resp ∧
  r.chain_id = none ∧ r.turn_number = none ∧
  p.1.session_id = some sid ∧
  (∃ cid tn, p.1.chain_id = some cid ∧ p.1.turn_number = some ((tn : ℤ) : ℚ) ∧
    (cid, tn, p.2) =
      assignChainMetadata { r with session_id := some sid } state senderOrigin
        nowMs freshChainId)

/-- C10's conclusion about one `prompt_hash_controls` row: it is the
finalization of a real prompt-hash group of the filtered records — its
published prefix is the first 12 characters of that group's hash, its request
count is the number of hash-carrying records of that hash, and its scenario
count is the number of distinct input-mode labels among them. -/
def controlRowFromGroup (records : List StoredRecord) (sel : Option String)
    (row : ControlRow) : Prop :=
  ∃ h : String, row.prompt_hash_pfx = String.mk (h.data.take 12) ∧
    (∃ r ∈ modelRecordsOf records sel, hashKeyOf r = some h) ∧
    row.requests = ((hashedPairsOf records sel).filter fun p => p.1 = h).length ∧
    row.scenario_count =
      ((((hashedPairsOf records sel).filter fun p => p.1 = h).map
        fun p => inputModeKey p.2).toFinset).card

/-- C4's amended conclusion. For permuted inputs `l₁ ~ l₂`: the dashboard
summary and every aggregate value are identical; the per-model rows are
identical as a multiset (their order is only canonical up to comparator ties,
which the stable sort breaks by first-insertion order); the scenario
comparison's selected model and (totally ordered) model options are
identical; the count-sorted breakdown tables are permutations, the
label-sorted ones identical; the two truncated comparison tables are
permutations whenever they are not cut off by their top-50/top-30
truncation. -/
def aggregationPermInvariant (l₁ l₂ : List StoredRecord) (sel : Option String) : Prop :=
  (buildDashboardStats l₁).summary = (buildDashboardStats l₂).summary ∧
  ((buildDashboardStats l₁).models.Perm (buildDashboardStats l₂).models) ∧
  (buildScenarioComparisons l₁ sel).selected_model =
    (buildScenarioComparisons l₂ sel).selected_model ∧
  (buildScenarioComparisons l₁ sel).model_options =
    (buildScenarioComparisons l₂ sel).model_options ∧
  (buildScenarioComparisons l₁ sel).selected_model_record_count =
    (buildScenarioComparisons l₂ sel).selected_model_record_count ∧
  ((buildScenarioComparisons l₁ sel).input_mode.Perm
    (buildScenarioComparisons l₂ sel).input_mode) ∧
  ((buildScenarioComparisons l₁ sel).file_kind_set.Perm
    (buildScenarioComparisons l₂ sel).file_kind_set) ∧
  ((buildScenarioComparisons l₁ sel).runtime_bucket.Perm
    (buildScenarioComparisons l₂ sel).runtime_bucket) ∧
  ((buildScenarioComparisons l₁ sel).stop_reason_category.Perm
    (buildScenarioComparisons l₂ sel).stop_reason_category) ∧
  (buildScenarioComparisons l₁ sel).file_size_bucket =
    (buildScenarioComparisons l₂ sel).file_size_bucket ∧
  (buildScenarioComparisons l₁ sel).image_size_bucket =
    (buildScenarioComparisons l₂ sel).image_size_bucket ∧
  (buildScenarioComparisons l₁ sel).image_count_bucket =
    (buildScenarioComparisons l₂ sel).image_count_bucket ∧
  (buildScenarioComparisons l₁ sel).current_user_text_size_bucket =
    (buildScenarioComparisons l₂ sel).current_user_text_size_bucket ∧
  (buildScenarioComparisons l₁ sel).output_length_bucket =
    (buildScenarioComparisons l₂ sel).output_length_bucket ∧
  ((((modelRecordsOf l₁ sel).map fvtRowOf).filter fun x =>
      x.file_bytes_total.isSome || x.current_user_text_bytes.isSome).length ≤ 50 →
    (buildScenarioComparisons l₁ sel).file_vs_text.Perm
      (buildScenarioComparisons l₂ sel).file_vs_text) ∧
  (((promptHashMapOf l₁ sel).filter fun p => 1 < p.2.inputModes.length).length ≤ 30 →
    (buildScenarioComparisons l₁ sel).prompt_hash_controls.Perm
      (buildScenarioComparisons l₂ sel).prompt_hash_controls)

/-! ## Concrete inputs used by counterexamples and witnesses -/

/-- A second-turn record (two user messages, one assistant message): captured
at millisecond 1000, prompt hash `"h"`. -/
def c3recFirst : StoredRecord :=
  { captured_at_ms := some 1000
    ui_origin := some "https://ui.example"
    req := some
      { messages_count := some 4
        input_composition :=
          { messages_by_role_count_user := some 2
            messages_by_role_count_assistant := some 1 }
        prompt_identity := { prompt_hash := some "h" } } }

/-- The identical record replayed 300 000 ms later (five minutes — more than
the 120 000 ms duplicate window, less than the 30 minute idle window). -/
def c3recReplay : StoredRecord :=
  { c3recFirst with captured_at_ms := some 301000 }

/-- An all-default record for model `"a"`. -/
def recModelA : StoredRecord :=
  { req := some { model := some "a" }, resp := some {} }

/-- An all-default record for model `"b"`. -/
def recModelB : StoredRecord :=
  { req := some { model := some "b" }, resp := some {} }

/-- A record for model `"a"` with prompt hash `"hash-1"` and input mode
`"text_only"`. -/
def c10recText : StoredRecord :=
  { req := some
      { model := some "a"
        scenario_labels := { input_mode := some "text_only" }
        prompt_identity := { prompt_hash := some "hash-1" } }
    resp := some {} }

/-- A record for model `"a"` with the same prompt hash `"hash-1"` but input
mode `"text+file"`. -/
def c10recFile : StoredRecord :=
  { req := some
      { model := some "a"
        scenario_labels := { input_mode := some "text+file" }
        prompt_identity := { prompt_hash := some "hash-1" } }
    resp := some {} }

/-! ## Lemma library: string comparison -/

theorem lexLe_total (a b : List Char) : lexLe a b = true ∨ lexLe b a = true := by
  induction a generalizing b with
  | nil => left; rfl
  | cons x xs ih =>
    cases b with
    | nil => right; rfl
    | cons y ys =>
      by_cases h1 : x.val.toNat < y.val.toNat
      · left; simp [lexLe, h1]
      · by_cases h2 : y.val.toNat < x.val.toNat
        · right; simp [lexLe, h2]
        · rcases ih ys with h | h
          · left; simp [lexLe, h1, h2, h]
          · right; simp [lexLe, h1, h2, h]

theorem lexLe_trans {a b c : List Char} (h1 : lexLe a b = true) (h2 : lexLe b c = true) :
    lexLe a c = true := by
  induction a generalizing b c with
  | nil => rfl
  | cons x xs ih =>
    cases b with
    | nil => simp [lexLe] at h1
    | cons y ys =>
      cases c with
      | nil => simp [lexLe] at h2
      | cons z zs =>
        simp only [lexLe] at h1 h2 ⊢
        by_cases hxy : x.val.toNat < y.val.toNat
        · by_cases hyz : y.val.toNat < z.val.toNat
          · simp [Nat.lt_trans hxy hyz]
          · by_cases hzy : z.val.toNat < y.val.toNat
            · simp [hxy, hyz, hzy] at h2
            · have hyzeq : y.val.toNat = z.val.toNat := Nat.le_antisymm
                (Nat.le_of_not_lt hzy) (Nat.le_of_not_lt hyz)
              simp [hyzeq ▸ hxy]
        · by_cases hyx : y.val.toNat < x.val.toNat
          · simp [hxy, hyx] at h1
          · have hxyeq : x.val.toNat = y.val.toNat := Nat.le_antisymm
              (Nat.le_of_not_lt hyx) (Nat.le_of_not_lt hxy)
            by_cases hyz : y.val.toNat < z.val.toNat
            · simp [hxyeq ▸ hyz]
            · by_cases hzy : z.val.toNat < y.val.toNat
              · simp [hyz, hzy] at h2
              · have h3 : ¬ x.val.toNat < z.val.toNat := by omega
                have h4 : ¬ z.val.toNat < x.val.toNat := by omega
                simp only [hxy, hyx, if_neg, ite_false] at h1
                simp only [hyz, hzy, if_neg, ite_false] at h2
                simp [h3, h4, ih h1 h2]

theorem lexLe_antisymm {a b : List Char} (h1 : lexLe a b = true) (h2 : lexLe b a = true) :
    a = b := by
  induction a generalizing b with
  | nil =>
    cases b with
    | nil => rfl
    | cons y ys => simp [lexLe] at h2
  | cons x xs ih =>
    cases b with
    | nil => simp [lexLe] at h1
    | cons y ys =>
      simp only [lexLe] at h1 h2
      by_cases hxy : x.val.toNat < y.val.toNat
      · have : ¬ y.val.toNat < x.val.toNat := by omega
        simp [hxy, this] at h2
      · by_cases hyx : y.val.toNat < x.val.toNat
        · simp [hxy, hyx] at h1
        · have heq : x.val.toNat = y.val.toNat := Nat.le_antisymm
            (Nat.le_of_not_lt hyx) (Nat.le_of_not_lt hxy)
          simp only [hxy, hyx, if_neg, ite_false] at h1 h2
          have hval : x.val = y.val := by
            apply UInt32.ext
            simpa using heq
          have hx : x = y := Char.ext hval
          rw [hx, ih h1 h2]

theorem strLe_total (a b : String) : strLe a b = true ∨ strLe b a = true :=
  lexLe_total a.data b.data

theorem strLe_trans {a b c : String} (h1 : strLe a b = true) (h2 : strLe b c = true) :
    strLe a c = true := lexLe_trans h1 h2

theorem strLe_antisymm {a b : String} (h1 : strLe a b = true) (h2 : strLe b a = true) :
    a = b := by
  cases a; cases b
  exact congrArg String.mk (lexLe_antisymm h1 h2)


/-! ## Lemma library: stable sort -/

theorem insStable_perm (le : α → α → Bool) (x : α) (l : List α) :
    (insStable le x l).Perm (x :: l) := by
  induction l with
  | nil => simp [insStable]
  | cons y ys ih =>
    by_cases h : le y x
    · simpa [insStable, h] using ((ih.cons y).trans (List.Perm.swap x y ys))
    · simp [insStable, h]

theorem sortStable_perm (le : α → α → Bool) (l : List α) : (sortStable le l).Perm l := by
  suffices h : ∀ acc : List α,
      (l.foldl (fun acc x => insStable le x acc) acc).Perm (acc ++ l) by
    simpa [sortStable] using h []
  induction l with
  | nil => intro acc; simp
  | cons x xs ih =>
    intro acc
    simp only [List.foldl_cons]
    refine (ih (insStable le x acc)).trans ?_
    have h1 : (insStable le x acc ++ xs).Perm (x :: (acc ++ xs)) := by
      simpa using List.Perm.append_right xs (insStable_perm le x acc)
    exact h1.trans List.perm_middle.symm

theorem insStable_pairwise (le : α → α → Bool)
    (htot : ∀ a b, le a b = true ∨ le b a = true)
    (htr : ∀ a b c, le a b = true → le b c = true → le a c = true)
    (x : α) (l : List α) (h : l.Pairwise (fun a b => le a b = true)) :
    (insStable le x l).Pairwise (fun a b => le a b = true) := by
  induction l with
  | nil => simp [insStable]
  | cons y ys ih =>
    rcases List.pairwise_cons.mp h with ⟨hy, hys⟩
    by_cases hle : le y x
    · rw [insStable, if_pos hle]
      refine List.pairwise_cons.mpr ⟨?_, ih hys⟩
      intro b hb
      have hb2 := (insStable_perm le x ys).mem_iff.mp hb
      rcases List.mem_cons.mp hb2 with rfl | hb3
      · exact hle
      · exact hy b hb3
    · have hxy : le x y = true := by
        rcases htot x y with h1 | h1
        · exact h1
        · exact absurd h1 hle
      rw [insStable, if_neg hle]
      refine List.pairwise_cons.mpr ⟨?_, h⟩
      intro b hb
      rcases List.mem_cons.mp hb with rfl | hb2
      · exact hxy
      · exact htr x y b hxy (hy b hb2)

theorem sortStable_pairwise (le : α → α → Bool)
    (htot : ∀ a b, le a b = true ∨ le b a = true)
    (htr : ∀ a b c, le a b = true → le b c = true → le a c = true)
    (l : List α) : (sortStable le l).Pairwise (fun a b => le a b = true) := by
  suffices h : ∀ acc : List α, acc.Pairwise (fun a b => le a b = true) →
      (l.foldl (fun acc x => insStable le x acc) acc).Pairwise (fun a b => le a b = true) by
    exact h [] (by simp)
  induction l with
  | nil => intro acc hacc; simpa using hacc
  | cons x xs ih =>
    intro acc hacc
    exact ih (insStable le x acc) (insStable_pairwise le htot htr x acc hacc)

/-- Two permuted lists, each sorted under a comparator that is a linear
preorder of an injective-on-these-lists key, are equal. Used for the
label-sorted breakdown tables, whose labels are distinct grouping keys. -/
theorem eq_of_perm_pairwise_nodup_key {α κ : Type _} (key : α → κ)
    (r : κ → κ → Prop) (hanti : ∀ x y, r x y → r y x → x = y)
    {l₁ l₂ : List α} (hperm : l₁.Perm l₂)
    (hs₁ : l₁.Pairwise (fun a b => r (key a) (key b)))
    (hs₂ : l₂.Pairwise (fun a b => r (key a) (key b)))
    (hnd : (l₁.map key).Nodup) : l₁ = l₂ := by
  induction l₁ generalizing l₂ with
  | nil => exact (List.Perm.nil_eq hperm).symm ▸ rfl
  | cons a t₁ ih =>
    cases l₂ with
    | nil => exact absurd hperm.symm (by simp)
    | cons b t₂ =>
      have hab : a = b := by
        have hain : a ∈ b :: t₂ := hperm.mem_iff.mp (List.mem_cons_self a t₁)
        have hbin : b ∈ a :: t₁ := hperm.symm.mem_iff.mp (List.mem_cons_self b t₂)
        rcases List.mem_cons.mp hain with rfl | ha2
        · rfl
        rcases List.mem_cons.mp hbin with rfl | hb2
        · rfl
        have h1 : r (key b) (key a) := (List.pairwise_cons.mp hs₂).1 a ha2
        have h2 : r (key a) (key b) := (List.pairwise_cons.mp hs₁).1 b hb2
        have hk : key a = key b := hanti _ _ h2 h1
        have : key b ∈ t₁.map key := List.mem_map_of_mem key hb2
        rw [← hk] at this
        exact absurd this ((List.nodup_cons.mp hnd).1)
      subst hab
      have hperm' : t₁.Perm t₂ := (List.perm_cons a).mp hperm
      have := ih hperm' (List.pairwise_cons.mp hs₁).2 (List.pairwise_cons.mp hs₂).2
        ((List.nodup_cons.mp hnd).2)
      rw [this]


/-! ## Lemma library: insertion-ordered maps -/

section GroupFoldLemmas

variable {κ ρ α : Type _} [DecidableEq κ]

theorem alookup_append (k : κ) (l₁ l₂ : List (κ × α)) :
    alookup k (l₁ ++ l₂) =
      match alookup k l₁ with
      | some v => some v
      | none => alookup k l₂ := by
  induction l₁ with
  | nil => simp [alookup]
  | cons p t ih =>
    by_cases h : p.1 = k
    · cases p; simp_all [alookup]
    · cases p; simp_all [alookup]

theorem alookup_map_upd (k k2 : κ) (f : α → α) (m : List (κ × α)) :
    alookup k (m.map fun p => (p.1, if p.1 = k2 then f p.2 else p.2)) =
      if k2 = k then (alookup k m).map f else alookup k m := by
  induction m with
  | nil => by_cases h : k2 = k <;> simp [alookup, h]
  | cons p t ih =>
    cases p with
    | mk kp vp =>
      simp only [List.map_cons, alookup]
      by_cases hk : kp = k
      · subst hk
        by_cases hp : kp = k2
        · subst hp
          simp [alookup, if_pos rfl]
        · have h3 : ¬ k2 = kp := fun h => hp h.symm
          simp [alookup, if_pos rfl, hp, h3]
      · simp only [if_neg hk]
        exact ih

theorem alookup_groupUpd (keyOf : ρ → κ) (init : κ → α) (upd : α → ρ → α)
    (m : List (κ × α)) (r : ρ) (k : κ) :
    alookup k (groupUpd keyOf init upd m r) =
      if keyOf r = k then
        match alookup k m with
        | some v => some (upd v r)
        | none => some (upd (init k) r)
      else alookup k m := by
  unfold groupUpd
  by_cases hs : (alookup (keyOf r) m).isSome
  · rw [if_pos hs]
    rw [alookup_map_upd k (keyOf r) (fun v => upd v r) m]
    by_cases hk : keyOf r = k
    · subst hk
      obtain ⟨v, hv⟩ := Option.isSome_iff_exists.mp hs
      rw [if_pos rfl, if_pos rfl, hv]
      rfl
    · rw [if_neg hk, if_neg hk]
  · rw [if_neg hs, alookup_append]
    have hn : alookup (keyOf r) m = none := Option.not_isSome_iff_eq_none.mp hs
    by_cases hk : keyOf r = k
    · subst hk
      rw [if_pos rfl, hn]
      simp [alookup]
    · rw [if_neg hk]
      cases h : alookup k m with
      | some v => rfl
      | none =>
        have : ¬ keyOf r = k := hk
        simp [alookup, this]

/-- Keys of the grouped map after one update. -/
theorem keys_groupUpd (keyOf : ρ → κ) (init : κ → α) (upd : α → ρ → α)
    (m : List (κ × α)) (r : ρ) :
    (groupUpd keyOf init upd m r).map Prod.fst =
      if (alookup (keyOf r) m).isSome then m.map Prod.fst
      else m.map Prod.fst ++ [keyOf r] := by
  unfold groupUpd
  by_cases hs : (alookup (keyOf r) m).isSome
  · rw [if_pos hs, if_pos hs, List.map_map]
    rfl
  · rw [if_neg hs, if_neg hs]
    simp

theorem alookup_isSome_iff_mem_keys (k : κ) (m : List (κ × α)) :
    (alookup k m).isSome ↔ k ∈ m.map Prod.fst := by
  induction m with
  | nil => simp [alookup]
  | cons p t ih =>
    cases p with
    | mk kp vp =>
      by_cases h : kp = k
      · subst h
        simp [alookup]
      · have h2 : ¬ k = kp := fun h2 => h h2.symm
        simp [alookup, h, h2, ih]

theorem keys_nodup_groupFold (keyOf : ρ → κ) (init : κ → α) (upd : α → ρ → α)
    (l : List ρ) : ((groupFold keyOf init upd l).map Prod.fst).Nodup := by
  suffices h : ∀ m : List (κ × α), (m.map Prod.fst).Nodup →
      ((l.foldl (groupUpd keyOf init upd) m).map Prod.fst).Nodup by
    exact h [] (by simp)
  induction l with
  | nil => intro m hm; simpa using hm
  | cons r t ih =>
    intro m hm
    simp only [List.foldl_cons]
    apply ih
    rw [keys_groupUpd]
    by_cases hs : (alookup (keyOf r) m).isSome
    · rw [if_pos hs]; exact hm
    · rw [if_neg hs]
      have : keyOf r ∉ m.map Prod.fst := by
        rw [← alookup_isSome_iff_mem_keys (α := α)]
        simp [Option.not_isSome_iff_eq_none.mp (by simpa using hs)]
      simp [List.nodup_append, hm, this]

/-- The value the grouped map associates with key `k` is the plain fold of the
update function over the records whose key is `k`. -/
theorem alookup_groupFold (keyOf : ρ → κ) (init : κ → α) (upd : α → ρ → α)
    (l : List ρ) (k : κ) :
    alookup k (groupFold keyOf init upd l) =
      if (l.filter fun r => keyOf r = k).isEmpty then none
      else some ((l.filter fun r => keyOf r = k).foldl upd (init k)) := by
  suffices h : ∀ m : List (κ × α),
      alookup k (l.foldl (groupUpd keyOf init upd) m) =
        match alookup k m with
        | some v => some ((l.filter fun r => keyOf r = k).foldl upd v)
        | none =>
          if (l.filter fun r => keyOf r = k).isEmpty then none
          else some ((l.filter fun r => keyOf r = k).foldl upd (init k)) by
    have := h []
    simpa [alookup] using this
  induction l with
  | nil =>
    intro m
    cases h : alookup k m <;> simp [groupFold, alookup, h]
  | cons r t ih =>
    intro m
    simp only [List.foldl_cons]
    rw [ih (groupUpd keyOf init upd m r), alookup_groupUpd]
    by_cases hk : keyOf r = k
    · rw [if_pos hk]
      cases h : alookup k m with
      | some v => simp [List.filter_cons, hk]
      | none => simp [List.filter_cons, hk]
    · rw [if_neg hk]
      cases h : alookup k m with
      | some v => simp [List.filter_cons, hk]
      | none => simp [List.filter_cons, hk]

theorem mem_keys_groupFold_iff (keyOf : ρ → κ) (init : κ → α) (upd : α → ρ → α)
    (l : List ρ) (k : κ) :
    k ∈ (groupFold keyOf init upd l).map Prod.fst ↔ ∃ r ∈ l, keyOf r = k := by
  rw [← alookup_isSome_iff_mem_keys (α := α), alookup_groupFold]
  by_cases h : (l.filter fun r => keyOf r = k).isEmpty
  · rw [if_pos h]
    have hnil : (l.filter fun r => keyOf r = k) = [] := List.isEmpty_iff.mp h
    simp only [Option.isSome_none, Bool.false_eq_true, false_iff]
    intro ⟨r, hr, hk⟩
    have : r ∈ l.filter fun r => keyOf r = k := List.mem_filter.mpr ⟨hr, by simp [hk]⟩
    rw [hnil] at this
    exact absurd this (List.not_mem_nil r)
  · rw [if_neg h]
    simp only [Option.isSome_some, true_iff]
    have hne : (l.filter fun r => keyOf r = k) ≠ [] := by
      intro h2
      exact h (by simp [h2])
    obtain ⟨r, hr⟩ := List.exists_mem_of_ne_nil _ hne
    exact ⟨r, (List.mem_filter.mp hr).1, by simpa using (List.mem_filter.mp hr).2⟩

theorem perm_removeKey {k : κ} {v : α} :
    ∀ {l : List (κ × α)}, alookup k l = some v → l.Perm ((k, v) :: removeKey k l)
  | [], h => by simp [alookup] at h
  | (kp, vp) :: t, h => by
    by_cases hp : kp = k
    · subst hp
      have h2 : vp = v := by simpa [alookup] using h
      subst h2
      simp [removeKey]
    · simp only [alookup, if_neg hp] at h
      have ih := perm_removeKey (l := t) h
      have h2 : removeKey k ((kp, vp) :: t) = (kp, vp) :: removeKey k t := by
        simp [removeKey, hp]
      rw [h2]
      exact ((ih.cons (kp, vp)).trans (List.Perm.swap (k, v) (kp, vp) (removeKey k t)))

theorem alookup_removeKey_other {k k2 : κ} (hk2 : ¬ k2 = k) :
    ∀ l : List (κ × α), alookup k2 (removeKey k l) = alookup k2 l
  | [] => rfl
  | (kp, vp) :: t => by
    by_cases hp : kp = k
    · subst hp
      have h2 : ¬ kp = k2 := fun h => hk2 h.symm
      simp [removeKey, alookup, h2]
    · simp only [removeKey, if_neg hp, alookup]
      by_cases h3 : kp = k2
      · simp [h3]
      · simp [h3, alookup_removeKey_other hk2 t]

theorem removeKey_keys_sublist (k : κ) :
    ∀ l : List (κ × α), ((removeKey k l).map Prod.fst).Sublist (l.map Prod.fst)
  | [] => List.Sublist.refl []
  | (kp, vp) :: t => by
    by_cases hp : kp = k
    · simp only [removeKey, if_pos hp, List.map_cons]
      exact (List.Sublist.refl _).cons kp
    · simp only [removeKey, if_neg hp, List.map_cons]
      exact (removeKey_keys_sublist k t).cons₂ kp

theorem perm_of_nodup_keys_alookup_eq :
    ∀ {l₁ l₂ : List (κ × α)}, (l₁.map Prod.fst).Nodup → (l₂.map Prod.fst).Nodup →
    (∀ k, alookup k l₁ = alookup k l₂) → l₁.Perm l₂
  | [], l₂, _, hnd₂, hlk => by
    cases l₂ with
    | nil => exact List.Perm.refl []
    | cons p t =>
      cases p with
      | mk kp vp =>
        have := hlk kp
        simp [alookup] at this
  | (k, v) :: t₁, l₂, hnd₁, hnd₂, hlk => by
    have hv : alookup k l₂ = some v := by
      have := hlk k
      simpa [alookup] using this.symm
    have hperm₂ : l₂.Perm ((k, v) :: removeKey k l₂) := perm_removeKey hv
    have hkeys : (l₂.map Prod.fst).Perm (k :: (removeKey k l₂).map Prod.fst) := by
      simpa using hperm₂.map Prod.fst
    have hnd₂cons := hkeys.nodup hnd₂
    have hkey_once : k ∉ (removeKey k l₂).map Prod.fst := (List.nodup_cons.mp hnd₂cons).1
    have hnd₂' : ((removeKey k l₂).map Prod.fst).Nodup := (List.nodup_cons.mp hnd₂cons).2
    have hnd₁head : k ∉ t₁.map Prod.fst := by
      have := hnd₁
      simp only [List.map_cons] at this
      exact (List.nodup_cons.mp this).1
    have hnd₁' : (t₁.map Prod.fst).Nodup := by
      have := hnd₁
      simp only [List.map_cons] at this
      exact (List.nodup_cons.mp this).2
    have hlk' : ∀ k2, alookup k2 t₁ = alookup k2 (removeKey k l₂) := by
      intro k2
      by_cases hk2 : k2 = k
      · subst hk2
        have h1 : alookup k2 t₁ = none := by
          cases h : alookup k2 t₁ with
          | none => rfl
          | some v2 =>
            exact absurd ((alookup_isSome_iff_mem_keys k2 t₁).mp (by simp [h])) hnd₁head
        have h2 : alookup k2 (removeKey k2 l₂) = none := by
          cases h : alookup k2 (removeKey k2 l₂) with
          | none => rfl
          | some v2 =>
            exact absurd ((alookup_isSome_iff_mem_keys k2 _).mp (by simp [h])) hkey_once
        rw [h1, h2]
      · have hne : ¬ k = k2 := fun h => hk2 h.symm
        have h1 : alookup k2 ((k, v) :: t₁) = alookup k2 t₁ := by
          simp [alookup, hne]
        rw [← h1, hlk k2, ← alookup_removeKey_other hk2 l₂]
    have ih := perm_of_nodup_keys_alookup_eq hnd₁' hnd₂' hlk'
    exact (ih.cons (k, v)).trans hperm₂.symm

/-- Permutation invariance of grouping: permuting the records permutes the
grouped map, provided the per-group update is order-insensitive. -/
theorem groupFold_perm (keyOf : ρ → κ) (init : κ → α) (upd : α → ρ → α)
    (hcomm : ∀ a r₁ r₂, upd (upd a r₁) r₂ = upd (upd a r₂) r₁)
    {l₁ l₂ : List ρ} (hperm : l₁.Perm l₂) :
    (groupFold keyOf init upd l₁).Perm (groupFold keyOf init upd l₂) := by
  apply perm_of_nodup_keys_alookup_eq (keys_nodup_groupFold _ _ _ _)
    (keys_nodup_groupFold _ _ _ _)
  intro k
  rw [alookup_groupFold, alookup_groupFold]
  have hpf : (l₁.filter fun r => keyOf r = k).Perm (l₂.filter fun r => keyOf r = k) :=
    hperm.filter _
  by_cases h : (l₁.filter fun r => keyOf r = k).isEmpty
  · have h2 : (l₂.filter fun r => keyOf r = k).isEmpty := by
      have := List.isEmpty_iff.mp h
      rw [this] at hpf
      simp [List.isEmpty_iff, (List.Perm.nil_eq hpf).symm]
    rw [if_pos h, if_pos h2]
  · have h2 : ¬ (l₂.filter fun r => keyOf r = k).isEmpty := by
      intro h2
      have := List.isEmpty_iff.mp h2
      rw [this] at hpf
      exact h (by simp [List.isEmpty_iff, List.Perm.eq_nil hpf])
    rw [if_neg h, if_neg h2]
    congr 1
    exact @List.Perm.foldl_eq _ _ upd _ _ ⟨fun a r₁ r₂ => hcomm a r₁ r₂⟩ hpf (init k)


end GroupFoldLemmas

/-! ## Parser lemmas -/

theorem nonneg_of_delta2 (A B : Option ℚ) (v : ℚ)
    (h : (match A, B with
          | some x, some y => some (max 0 (y - x))
          | _, _ => none) = some v) : 0 ≤ v := by
  cases A with
  | none => simp at h
  | some x =>
    cases B with
    | none => simp at h
    | some y =>
      simp only [Option.some.injEq] at h
      exact h ▸ le_max_left 0 (y - x)

theorem nonneg_of_delta1 (A : Option ℚ) (s v : ℚ)
    (h : (match A with
          | some x => some (max 0 (s - x))
          | none => none) = some v) : 0 ≤ v := by
  cases A with
  | none => simp at h
  | some x =>
    simp only [Option.some.injEq] at h
    exact h ▸ le_max_left 0 (s - x)

theorem computeClientTiming_spec (a b f st : Option ℚ) (now : ℚ) :
    clientTimingDeltasOk a b f (computeClientTiming a b f st now) := by
  unfold clientTimingDeltasOk computeClientTiming
  refine ⟨rfl, rfl, rfl, rfl, ?_, ?_, ?_, ?_, ?_, ?_, ?_, ?_, ?_, ?_, ?_, ?_,
    ?_, ?_, ?_, ?_, ?_, ?_⟩
  · cases a <;> cases b <;> simp
  · cases a <;> cases f <;> simp
  · cases b <;> cases f <;> simp
  · cases f <;> simp
  · cases b <;> simp
  · cases a <;> simp
  · intro x y hx hy; subst hx; subst hy; simp
  · intro x y hx hy; subst hx; subst hy; simp
  · intro x y hx hy; subst hx; subst hy; simp
  · intro x y hx hy
    subst hx
    simp only [Option.some.injEq] at hy ⊢
    rw [hy]
  · intro x y hx hy
    subst hx
    simp only [Option.some.injEq] at hy ⊢
    rw [hy]
  · intro x y hx hy
    subst hx
    simp only [Option.some.injEq] at hy ⊢
    rw [hy]
  · intro v hv; exact nonneg_of_delta2 a b v hv
  · intro v hv; exact nonneg_of_delta2 a f v hv
  · intro v hv; exact nonneg_of_delta2 b f v hv
  · intro v hv; exact nonneg_of_delta1 f (st.getD now) v hv
  · intro v hv; exact nonneg_of_delta1 b (st.getD now) v hv
  · intro v hv; exact nonneg_of_delta1 a (st.getD now) v hv

theorem categorizeFinishReason_some_ne_unknown (x : String) :
    categorizeFinishReason (some x) ≠ "unknown" := by
  unfold categorizeFinishReason
  split_ifs <;> simp_all

/-- C7: for every record emitted by the parser, the six `client_timing` deltas
each equal `max 0 (later mark - earlier mark)` whenever both endpoint marks
are known (the stop mark is always known on an emitted record); a delta is
`null` exactly when one of its endpoint marks is unknown, so a missing mark
nulls exactly the deltas referencing it; in particular when all four marks
are present all six deltas are present and non-negative. -/
theorem c7_client_timing_deltas (traceId uiOrigin : String) (requestMeta : Req)
    (s : ParseState) (c : Chunk) (t : ChunkTimings)
    (a b f st : Option ℚ) (now : ℚ)
    (hstop : s.stopChunk = some c) (htim : s.lastTimingsAtStop = some t) :
    ∃ r resp, emitRecord traceId uiOrigin requestMeta s a b f st now = some r ∧
      r.resp = some resp ∧ clientTimingDeltasOk a b f resp.client_timing := by
  refine ⟨emitBody traceId uiOrigin requestMeta s t a b f st now, _, ?_, rfl, ?_⟩
  · unfold emitRecord
    rw [hstop, htim]
  · exact computeClientTiming_spec a b f st now

theorem c7_client_timing_deltas_witness :
    ∃ r resp,
      emitRecord "t" "o" {} { stopChunk := some {}, lastTimingsAtStop := some {} }
        (some 10) (some 20) (some 30) (some 100) 0 = some r ∧
      r.resp = some resp ∧
      clientTimingDeltasOk (some 10) (some 20) (some 30) resp.client_timing :=
  c7_client_timing_deltas "t" "o" {} { stopChunk := some {}, lastTimingsAtStop := some {} }
    {} {} (some 10) (some 20) (some 30) (some 100) 0 rfl rfl

/-- C9 counterexample: an SSE stream whose only timed chunk carries the
explicitly empty finish reason `""` followed by the `[DONE]` sentinel yields
an emitted record whose `finish_reason` is the empty string (the `?? "done"`
default does not replace an empty string, only a nullish one), refuting
"every emitted record carries a non-empty string finish_reason"; its
stop-reason category is still `"other"`, not `"unknown"`. -/
theorem c9_counterexample :
    (((parseSse "t" "o" {}
        [SseItem.chunk { finish_reason := some "", timings := some {} },
          SseItem.doneMarker] none none none none 0).bind
      (fun r => r.resp)).map (fun resp => resp.finish_reason) = some (some "")) ∧
    (((parseSse "t" "o" {}
        [SseItem.chunk { finish_reason := some "", timings := some {} },
          SseItem.doneMarker] none none none none 0).bind
      (fun r => r.resp)).map (fun resp => resp.guardrails.stop_reason_category) =
        some (some "other")) := by
  constructor <;> rfl

/-- C9 (amended): every record emitted by the parser carries a string (never
absent) `finish_reason` — when the terminal chunk lacked one it is defaulted
to `"stop"` or `"done"`, though a promoted chunk may carry an explicitly
empty string — and its `stop_reason_category` is `categorizeFinishReason` of
that string, which is never `"unknown"`: the absent-input branch of the
mapping is unreachable for parser output. -/
theorem c9_stop_reason_never_unknown (traceId uiOrigin : String) (requestMeta : Req)
    (s : ParseState) (c : Chunk) (t : ChunkTimings)
    (a b f st : Option ℚ) (now : ℚ)
    (hstop : s.stopChunk = some c) (htim : s.lastTimingsAtStop = some t) :
    ∃ r resp, emitRecord traceId uiOrigin requestMeta s a b f st now = some r ∧
      r.resp = some resp ∧
      resp.finish_reason = some (s.stopFinishReason.getD "stop") ∧
      resp.guardrails.stop_reason_category =
        some (categorizeFinishReason (some (s.stopFinishReason.getD "stop"))) ∧
      resp.guardrails.stop_reason_category ≠ some "unknown" := by
  refine ⟨emitBody traceId uiOrigin requestMeta s t a b f st now, _, ?_, rfl, rfl, rfl, ?_⟩
  · unfold emitRecord
    rw [hstop, htim]
  · intro hcontra
    have h2 : categorizeFinishReason (some (s.stopFinishReason.getD "stop")) = "unknown" := by
      have h3 := hcontra
      simp only [emitBody, Option.some.injEq] at h3
      exact h3
    exact categorizeFinishReason_some_ne_unknown _ h2

theorem c9_stop_reason_never_unknown_witness :
    ∃ r resp,
      emitRecord "t" "o" {} { stopChunk := some {}, lastTimingsAtStop := some {} }
        none none none none 0 = some r ∧
      r.resp = some resp ∧
      resp.finish_reason =
        some ((({} : ParseState).stopFinishReason).getD "stop") ∧
      resp.guardrails.stop_reason_category =
        some (categorizeFinishReason
          (some ((({} : ParseState).stopFinishReason).getD "stop"))) ∧
      resp.guardrails.stop_reason_category ≠ some "unknown" :=
  c9_stop_reason_never_unknown "t" "o" {}
    { stopChunk := some {}, lastTimingsAtStop := some {} } {} {}
    none none none none 0 rfl rfl

/-- `Math.round` of a non-negative number is non-negative. -/
theorem jsRound_nonneg {x : ℚ} (h : 0 ≤ x) : 0 ≤ jsRound x := by
  unfold jsRound
  rw [round_eq]
  exact Int.floor_nonneg.mpr (by linarith)

/-- `roundMs` of a non-negative number is non-negative. -/
theorem roundMs_nonneg {x : ℚ} (h : 0 ≤ x) : 0 ≤ roundMs x := by
  unfold roundMs
  have h2 : (0 : ℤ) ≤ jsRound (x * 1000) := jsRound_nonneg (by positivity)
  have h3 : (0 : ℚ) ≤ (jsRound (x * 1000) : ℚ) := by exact_mod_cast h2
  exact div_nonneg h3 (by norm_num)

/-- Rounding the two parts of a sum to milliseconds separately moves the
total by at most one part in a thousand. -/
theorem roundMs_sum_bound (u v : ℚ) :
    |roundMs u + roundMs v - roundMs (u + v)| ≤ 1 / 1000 := by
  have h1 := abs_sub_round (u * 1000)
  have h2 := abs_sub_round (v * 1000)
  have h3 := abs_sub_round ((u + v) * 1000)
  set a : ℤ := round (u * 1000) with ha
  set b : ℤ := round (v * 1000) with hb
  set c : ℤ := round ((u + v) * 1000) with hc
  have h1' : |(a : ℚ) - u * 1000| ≤ 1 / 2 := by rw [abs_sub_comm]; exact h1
  have h2' : |(b : ℚ) - v * 1000| ≤ 1 / 2 := by rw [abs_sub_comm]; exact h2
  have h3' : |(c : ℚ) - (u + v) * 1000| ≤ 1 / 2 := by rw [abs_sub_comm]; exact h3
  have hq : |((a + b - c : ℤ) : ℚ)| ≤ 3 / 2 := by
    have e : ((a + b - c : ℤ) : ℚ) =
        ((a : ℚ) - u * 1000) + ((b : ℚ) - v * 1000) - ((c : ℚ) - (u + v) * 1000) := by
      push_cast
      ring
    rw [e]
    have t1 := abs_sub (((a : ℚ) - u * 1000) + ((b : ℚ) - v * 1000))
      ((c : ℚ) - (u + v) * 1000)
    have t2 := abs_add ((a : ℚ) - u * 1000) ((b : ℚ) - v * 1000)
    linarith
  have hz : |a + b - c| ≤ 1 := by
    have h4 : ((|a + b - c| : ℤ) : ℚ) ≤ 3 / 2 := by
      rw [Int.cast_abs]
      exact hq
    have h5 : |a + b - c| ≤ ⌊(3 / 2 : ℚ)⌋ := Int.le_floor.mpr h4
    have h6 : ⌊(3 / 2 : ℚ)⌋ = 1 := by
      rw [Int.floor_eq_iff]
      norm_num
    rw [h6] at h5
    exact h5
  have e2 : roundMs u + roundMs v - roundMs (u + v) = ((a + b - c : ℤ) : ℚ) / 1000 := by
    unfold roundMs jsRound
    rw [← ha, ← hb, ← hc]
    push_cast
    ring
  rw [e2, abs_div]
  have h7 : |((a + b - c : ℤ) : ℚ)| ≤ 1 := by
    rw [← Int.cast_abs]
    exact_mod_cast hz
  have h8 : |(1000 : ℚ)| = 1000 := by norm_num
  rw [h8]
  linarith

/-- C2: every record emitted by the parser from a terminal state whose stop
timings carry `predicted_n = T ≥ 0` and `predicted_ms = M ≥ 0`, and whose
reasoning boundary snapshot (when present) carries counters within those
totals, has a derived reasoning/content split that sums exactly to `T` in
tokens and to the recorded (rounded) `predicted_ms` within `1/1000` in
milliseconds, with all four split values non-negative; when no reasoning
content was observed the split is degenerate: `reasoning_n = 0`,
`reasoning_ms = 0` and `content_n = T`. -/
theorem c2_derived_split (traceId uiOrigin : String) (requestMeta : Req)
    (s : ParseState) (sc : Chunk) (t : ChunkTimings) (T M : ℚ)
    (a b f st : Option ℚ) (now : ℚ)
    (hstop : s.stopChunk = some sc) (htim : s.lastTimingsAtStop = some t)
    (hTn : t.predicted_n = some T) (hTm : t.predicted_ms = some M)
    (hT0 : 0 ≤ T) (hM0 : 0 ≤ M)
    (hb : s.reasoningBoundary = none ∨
      ∃ rn rm, s.reasoningBoundary = some ⟨some rn, some rm⟩ ∧
        0 ≤ rn ∧ rn ≤ T ∧ 0 ≤ rm ∧ rm ≤ M) :
    ∃ r resp, emitRecord traceId uiOrigin requestMeta s a b f st now = some r ∧
      r.resp = some resp ∧ derivedSplitOk T M resp ∧
      (s.reasoningBoundary = none →
        resp.derived.reasoning_n = some 0 ∧ resp.derived.reasoning_ms = some 0 ∧
        resp.derived.content_n = some T) := by
  refine ⟨emitBody traceId uiOrigin requestMeta s t a b f st now, _, ?_, rfl, ?_, ?_⟩
  · unfold emitRecord
    rw [hstop, htim]
  · refine ⟨hTn, ?_, ?_, ?_⟩
    · show roundMsOpt t.predicted_ms = some (roundMs M)
      rw [hTm]
      rfl
    · rcases hb with hbn | ⟨rn, rm, hbs, h0n, hnT, h0m, hmM⟩
      · exact ⟨0, T, by simp [emitBody, hbn], by simp [emitBody, hbn, hTn],
          by ring, le_refl 0, hT0⟩
      · refine ⟨rn, T - rn, by simp [emitBody, hbs], ?_, by ring, h0n,
          sub_nonneg.mpr hnT⟩
        simp [emitBody, hbs, hTn, max_eq_right (sub_nonneg.mpr hnT)]
    · rcases hb with hbn | ⟨rn, rm, hbs, h0n, hnT, h0m, hmM⟩
      · refine ⟨0, roundMs M, by simp [emitBody, hbn], by simp [emitBody, hbn, hTm, roundMsOpt], ?_,
          le_refl 0, roundMs_nonneg hM0⟩
        rw [zero_add, sub_self, abs_zero]
        norm_num
      · refine ⟨roundMs rm, roundMs (M - rm), by simp [emitBody, hbs], ?_, ?_,
          roundMs_nonneg h0m, roundMs_nonneg (sub_nonneg.mpr hmM)⟩
        · simp [emitBody, hbs, hTm, roundMsOpt, max_eq_right (sub_nonneg.mpr hmM)]
        · have hbd := roundMs_sum_bound rm (M - rm)
          rw [show rm + (M - rm) = M by ring] at hbd
          exact hbd
  · intro hbn
    exact ⟨by simp [emitBody, hbn], by simp [emitBody, hbn], by simp [emitBody, hbn, hTn]⟩

theorem c2_derived_split_witness :
    ∃ r resp,
      emitRecord "t" "o" {}
        { stopChunk := some {},
          lastTimingsAtStop := some { predicted_n := some 100, predicted_ms := some 1000 },
          reasoningBoundary := some ⟨some 30, some 300⟩ }
        none none none none 0 = some r ∧
      r.resp = some resp ∧ derivedSplitOk 100 1000 resp ∧
      (({ stopChunk := some {},
          lastTimingsAtStop := some { predicted_n := some 100, predicted_ms := some 1000 },
          reasoningBoundary := some ⟨some 30, some 300⟩ } :
            ParseState).reasoningBoundary = none →
        resp.derived.reasoning_n = some 0 ∧ resp.derived.reasoning_ms = some 0 ∧
        resp.derived.content_n = some 100) :=
  c2_derived_split "t" "o" {}
    { stopChunk := some {},
      lastTimingsAtStop := some { predicted_n := some 100, predicted_ms := some 1000 },
      reasoningBoundary := some ⟨some 30, some 300⟩ }
    {} { predicted_n := some 100, predicted_ms := some 1000 } 100 1000
    none none none none 0 rfl rfl rfl rfl (by decide) (by decide)
    (Or.inr ⟨30, 300, rfl, by decide, by decide, by decide, by decide⟩)

/-- A chunk with a non-empty `finish_reason` makes the loop body `break`,
recording it as the stop chunk together with its (possibly absent) timings. -/
theorem processItem_terminal (s : ParseState) (c : Chunk) (fr : String)
    (hfr : c.finish_reason = some fr) (hne : fr ≠ "") :
    (processItem s (SseItem.chunk c)).2 = true ∧
    (processItem s (SseItem.chunk c)).1.stopChunk = some c ∧
    (processItem s (SseItem.chunk c)).1.lastTimingsAtStop = c.timings := by
  rcases hdc : c.delta_content with _ | tdc <;>
    rcases hdr : c.delta_reasoning_content with _ | tdr <;>
    rcases hti : c.timings with _ | ti <;>
    simp [processItem, hdc, hdr, hti, hfr, hne]

/-- When the loop body reports `break`, the loop consumes nothing further. -/
theorem runItems_cons_of_terminal (s : ParseState) (it : SseItem) (rest : List SseItem)
    (h : (processItem s it).2 = true) :
    runItems s (it :: rest) = ((processItem s it).1, rest) := by
  cases hp : processItem s it with
  | mk s2 flag =>
    rw [hp] at h
    cases flag
    · exact absurd h (by simp)
    · simp [runItems, hp]

/-- The `[DONE]` sentinel arriving while no terminal chunk was seen but a
timed chunk exists promotes that chunk in-loop and `break`s. -/
theorem runItems_doneMarker_promotes (s : ParseState) (c : Chunk) (rest : List SseItem)
    (hstop : s.stopChunk = none) (hlast : s.lastTimedChunk = some c) :
    runItems s (SseItem.doneMarker :: rest) =
      ({ s with
          sawDoneMarker := true,
          stopChunk := some c,
          lastTimingsAtStop := c.timings,
          stopFinishReason := some (c.finish_reason.getD "done") }, rest) := by
  have hp : processItem s SseItem.doneMarker =
      ({ s with
          sawDoneMarker := true,
          stopChunk := some c,
          lastTimingsAtStop := c.timings,
          stopFinishReason := some (c.finish_reason.getD "done") }, true) := by
    simp [processItem, hstop, hlast]
  rw [runItems_cons_of_terminal s SseItem.doneMarker rest (by rw [hp]), hp]

/-- `lastTimedChunk` after one loop step: either untouched or set to a chunk
that carries a timings object. -/
theorem processItem_lastTimedChunk (s : ParseState) (it : SseItem) (c2 : Chunk)
    (h : (processItem s it).1.lastTimedChunk = some c2) :
    c2.timings.isSome = true ∨ s.lastTimedChunk = some c2 := by
  cases it with
  | skipLine => right; exact h
  | doneMarker =>
    right
    have key : (processItem s SseItem.doneMarker).1.lastTimedChunk =
        s.lastTimedChunk := by
      cases hsc : s.stopChunk <;> cases hlc : s.lastTimedChunk <;>
        simp [processItem, hsc, hlc]
    rw [key] at h
    exact h
  | chunk c =>
    have key : (processItem s (SseItem.chunk c)).1.lastTimedChunk =
        if c.timings.isSome then some c else s.lastTimedChunk := by
      rcases hdc : c.delta_content with _ | tdc <;>
        rcases hdr : c.delta_reasoning_content with _ | tdr <;>
        rcases hti : c.timings with _ | ti <;>
        rcases hfr : c.finish_reason with _ | fr <;>
        simp [processItem, hdc, hdr, hti, hfr] <;>
        split <;> rfl
    rw [key] at h
    by_cases ht : c.timings.isSome
    · rw [if_pos ht] at h
      injection h with h2
      subst h2
      exact Or.inl ht
    · rw [if_neg ht] at h
      exact Or.inr h

/-- Loop invariant: a recorded `lastTimedChunk` always carries a timings
object. -/
theorem runItems_lastTimedChunk_isSome (items : List SseItem) :
    ∀ s : ParseState,
      (∀ c, s.lastTimedChunk = some c → c.timings.isSome = true) →
      ∀ c, (runItems s items).1.lastTimedChunk = some c → c.timings.isSome = true := by
  induction items with
  | nil => exact fun s hinv c h => hinv c h
  | cons it rest ih =>
    intro s hinv c h
    have hstep : ∀ c2, (processItem s it).1.lastTimedChunk = some c2 →
        c2.timings.isSome = true := by
      intro c2 h2
      rcases processItem_lastTimedChunk s it c2 h2 with h3 | h3
      · exact h3
      · exact hinv c2 h3
    rw [runItems] at h
    cases hp : processItem s it with
    | mk s2 flag =>
      rw [hp] at h
      cases flag
      · have h4 : (runItems s2 rest).1.lastTimedChunk = some c := h
        exact ih s2 (fun c2 hc2 => hstep c2 (by rw [hp]; exact hc2)) c h4
      · have h4 : s2.lastTimedChunk = some c := h
        exact hstep c (by rw [hp]; exact h4)

/-- Without the `[DONE]` marker the degraded-terminal promotion never fires:
a final loop state with no stop chunk emits nothing. -/
theorem emitRecord_finalize_none (traceId uiOrigin : String) (requestMeta : Req)
    (s : ParseState) (a b f st : Option ℚ) (now : ℚ)
    (hstop : s.stopChunk = none) (hdone : s.sawDoneMarker = false) :
    emitRecord traceId uiOrigin requestMeta (finalizeState s) a b f st now = none := by
  have hfin : finalizeState s = s := by
    unfold finalizeState
    rw [hstop, hdone]
    cases hl : s.lastTimedChunk <;> simp
  rw [hfin]
  unfold emitRecord
  rw [hstop]

/-- The post-loop degraded-terminal promotion: no stop chunk, but the
`[DONE]` marker was seen and a timed chunk exists — the record is emitted
from that chunk. -/
theorem emitRecord_finalize_promotes (traceId uiOrigin : String) (requestMeta : Req)
    (s : ParseState) (c : Chunk) (ct : ChunkTimings) (a b f st : Option ℚ) (now : ℚ)
    (hstop : s.stopChunk = none) (hdone : s.sawDoneMarker = true)
    (hlast : s.lastTimedChunk = some c) (hct : c.timings = some ct) :
    emitRecord traceId uiOrigin requestMeta (finalizeState s) a b f st now =
      some (emitBody traceId uiOrigin requestMeta
        { s with
            stopChunk := some c,
            lastTimingsAtStop := c.timings,
            stopFinishReason := some (c.finish_reason.getD "done") }
        ct a b f st now) := by
  have hfin : finalizeState s =
      { s with
          stopChunk := some c,
          lastTimingsAtStop := c.timings,
          stopFinishReason := some (c.finish_reason.getD "done") } := by
    unfold finalizeState
    rw [hstop, hlast, hdone]
    simp
  rw [hfin]
  unfold emitRecord
  simp [hct]

/-- C1 counterexample: a stream that ends at EOF without the `[DONE]`
sentinel, after a chunk that carried a timings object but no finish reason,
emits **no** record — the degraded-terminal promotion requires
`sawDoneMarker`, so the claim's "stream ends via EOF ⇒ a record is still
emitted from the last timed chunk" is false (the README documents the
fallback path as `[DONE]` marker + last timed chunk). -/
theorem c1_counterexample :
    parseSse "t" "o" {} [SseItem.chunk { timings := some {} }]
      none none none none 0 = none ∧
    (runItems ({} : ParseState)
        [SseItem.chunk { timings := some {} }]).1.lastTimedChunk =
      some { timings := some {} } := by
  constructor <;> rfl

/-- C1 (amended): (A) a chunk with a non-empty `finish_reason` is terminal —
the loop `break`s there, consuming no further input, and records the chunk
with its timings; (B₀) the `[DONE]` sentinel with no stop chunk but a timed
chunk promotes that chunk in-loop and `break`s; (B) if the loop ends with no
stop chunk but `[DONE]` was seen and a timed chunk exists, a record is still
emitted (degraded terminal); (C) — the corrected part — if the stream ends at
EOF without `[DONE]` and without a terminal chunk, **no** record is emitted,
timed chunks notwithstanding. -/
theorem c1_completion_boundary (traceId uiOrigin : String) (requestMeta : Req)
    (items : List SseItem) (a b f st : Option ℚ) (now : ℚ) :
    (∀ (s : ParseState) (c : Chunk) (rest : List SseItem) (fr : String),
      c.finish_reason = some fr → fr ≠ "" →
      runItems s (SseItem.chunk c :: rest) =
        ((processItem s (SseItem.chunk c)).1, rest) ∧
      (processItem s (SseItem.chunk c)).1.stopChunk = some c ∧
      (processItem s (SseItem.chunk c)).1.lastTimingsAtStop = c.timings) ∧
    (∀ (s : ParseState) (c : Chunk) (rest : List SseItem),
      s.stopChunk = none → s.lastTimedChunk = some c →
      runItems s (SseItem.doneMarker :: rest) =
        ({ s with
            sawDoneMarker := true,
            stopChunk := some c,
            lastTimingsAtStop := c.timings,
            stopFinishReason := some (c.finish_reason.getD "done") }, rest)) ∧
    (∀ c : Chunk,
      (runItems ({} : ParseState) items).1.stopChunk = none →
      (runItems ({} : ParseState) items).1.sawDoneMarker = true →
      (runItems ({} : ParseState) items).1.lastTimedChunk = some c →
      ∃ r, parseSse traceId uiOrigin requestMeta items a b f st now = some r) ∧
    ((runItems ({} : ParseState) items).1.stopChunk = none →
      (runItems ({} : ParseState) items).1.sawDoneMarker = false →
      parseSse traceId uiOrigin requestMeta items a b f st now = none) := by
  refine ⟨?_, ?_, ?_, ?_⟩
  · intro s c rest fr hfr hne
    have hterm := processItem_terminal s c fr hfr hne
    exact ⟨runItems_cons_of_terminal s _ rest hterm.1, hterm.2.1, hterm.2.2⟩
  · intro s c rest hstop hlast
    exact runItems_doneMarker_promotes s c rest hstop hlast
  · intro c hstop hdone hlast
    have hts := runItems_lastTimedChunk_isSome items {}
      (fun c2 h2 => Option.noConfusion h2) c hlast
    obtain ⟨ct, hct⟩ := Option.isSome_iff_exists.mp hts
    have hemit := emitRecord_finalize_promotes traceId uiOrigin requestMeta
      (runItems ({} : ParseState) items).1 c ct a b f st now hstop hdone hlast hct
    exact ⟨_, by unfold parseSse; exact hemit⟩
  · intro hstop hdone
    unfold parseSse
    exact emitRecord_finalize_none traceId uiOrigin requestMeta _ a b f st now
      hstop hdone

theorem c1_completion_boundary_witness :
    (runItems ({} : ParseState)
        [SseItem.chunk { finish_reason := some "stop", timings := some {} },
          SseItem.skipLine]).2 = [SseItem.skipLine] ∧
    ∃ r, parseSse "t" "o" {}
        [SseItem.doneMarker, SseItem.chunk { timings := some {} }]
        none none none none 0 = some r := by
  obtain ⟨hA, hB0, hB, hC⟩ := c1_completion_boundary "t" "o" {}
    [SseItem.doneMarker, SseItem.chunk { timings := some {} }] none none none none 0
  constructor
  · rw [(hA {} { finish_reason := some "stop", timings := some {} }
      [SseItem.skipLine] "stop" rfl (by decide)).1]
  · exact hB { timings := some {} } rfl rfl rfl

/-- Re-writing `captured_at_ms` with its own value is the identity
(structure eta). -/
theorem set_captured_self (x : StoredRecord) (q : Option ℚ)
    (h : x.captured_at_ms = q) : { x with captured_at_ms := q } = x := by
  subst h
  rfl

/-- `addRecordStamp` on a record whose `captured_at_ms` is already a non-zero
(truthy) number: the timestamp is kept, and only `session_id`, `chain_id` and
`turn_number` are written. -/
theorem addRecordStamp_eq (r : StoredRecord) (sid : String)
    (state : Option ChainState) (so : Option String) (nowMs : ℚ) (fresh : String)
    (ts : ℚ) (hts : r.captured_at_ms = some ts) (hnz : ts ≠ 0) :
    addRecordStamp r sid state so nowMs fresh =
      ({ r with
          session_id := some sid,
          chain_id := some (assignChainMetadata { r with session_id := some sid }
            state so nowMs fresh).1,
          turn_number := some (((assignChainMetadata { r with session_id := some sid }
            state so nowMs fresh).2.1 : ℤ) : ℚ) },
        (assignChainMetadata { r with session_id := some sid }
          state so nowMs fresh).2.2) := by
  have h1 : jsOrQD r.captured_at_ms nowMs = ts := by
    rw [hts]
    simp [jsOrQD, hnz]
  simp only [addRecordStamp]
  rw [h1, hts]

/-- The stamping frame property holds of every record whose timestamp is a
truthy number and whose correlation fields are still unset. -/
theorem addRecordStamp_frame (r : StoredRecord) (sid : String)
    (state : Option ChainState) (so : Option String) (nowMs : ℚ) (fresh : String)
    (ts : ℚ) (hts : r.captured_at_ms = some ts) (hnz : ts ≠ 0)
    (hcid : r.chain_id = none) (htn : r.turn_number = none) :
    stampFrameOk r sid state so nowMs fresh := by
  simp only [stampFrameOk]
  rw [addRecordStamp_eq r sid state so nowMs fresh ts hts hnz]
  refine ⟨rfl, rfl, rfl, rfl, rfl, rfl, rfl, rfl, rfl, rfl, hcid, htn, rfl, ?_⟩
  exact ⟨(assignChainMetadata { r with session_id := some sid }
      state so nowMs fresh).1,
    (assignChainMetadata { r with session_id := some sid }
      state so nowMs fresh).2.1, rfl, rfl, rfl⟩

/-- C8: every record emitted by the parser (whose capture timestamp is a
non-zero wall-clock number) passes through the rest of the core with every
payload field unchanged: storage stamps the `session_id` annotation, and the
two correlation fields `chain_id` / `turn_number` — `none` on the emitted
record — are each written exactly once, with exactly the Correlator's
(`assignChainMetadata`) output. -/
theorem c8_single_writer (traceId uiOrigin : String) (requestMeta : Req)
    (s : ParseState) (sc : Chunk) (t : ChunkTimings)
    (a b f st : Option ℚ) (now : ℚ)
    (sid fresh : String) (state : Option ChainState) (so : Option String)
    (now2 : ℚ)
    (hstop : s.stopChunk = some sc) (htim : s.lastTimingsAtStop = some t)
    (hnz : now ≠ 0) :
    ∃ r, emitRecord traceId uiOrigin requestMeta s a b f st now = some r ∧
      stampFrameOk r sid state so now2 fresh := by
  refine ⟨emitBody traceId uiOrigin requestMeta s t a b f st now, ?_, ?_⟩
  · unfold emitRecord
    rw [hstop, htim]
  · exact addRecordStamp_frame _ sid state so now2 fresh now rfl hnz rfl rfl

theorem c8_single_writer_witness :
    ∃ r, emitRecord "t" "o" {} { stopChunk := some {}, lastTimingsAtStop := some {} }
        none none none none 5 = some r ∧
      stampFrameOk r "s" none none 0 "c-1" :=
  c8_single_writer "t" "o" {} { stopChunk := some {}, lastTimingsAtStop := some {} }
    {} {} none none none none 5 "s" "c-1" none none 0 rfl rfl (by decide)

section GroupFoldCount

variable {κ ρ α : Type _} [DecidableEq κ]

/-- In-place update of the (unique) entry with key `k` adds exactly one to
the total of a counter that the update increments. -/
theorem sum_cnt_map_upd (k : κ) (f : α → α) (cnt : α → ℕ)
    (hf : ∀ a, cnt (f a) = cnt a + 1) :
    ∀ m : List (κ × α), (m.map Prod.fst).Nodup → k ∈ m.map Prod.fst →
      ((m.map fun p => (p.1, if p.1 = k then f p.2 else p.2)).map
        fun p => cnt p.2).sum = ((m.map fun p => cnt p.2).sum) + 1 := by
  intro m
  induction m with
  | nil =>
    intro _ hk
    simp at hk
  | cons p t ih =>
    intro hnd hk
    rw [List.map_cons, List.nodup_cons] at hnd
    obtain ⟨hp1, hndt⟩ := hnd
    by_cases hpk : p.1 = k
    · have ht : ((t.map fun q => (q.1, if q.1 = k then f q.2 else q.2)).map
          fun q => cnt q.2) = t.map fun q => cnt q.2 := by
        rw [List.map_map]
        apply List.map_congr_left
        intro q hq
        have hqk : ¬ q.1 = k := by
          intro he
          apply hp1
          rw [hpk, ← he]
          exact List.mem_map_of_mem Prod.fst hq
        simp [hqk]
      have hhead : cnt (if p.1 = k then f p.2 else p.2) = cnt p.2 + 1 := by
        rw [if_pos hpk, hf]
      simp only [List.map_cons, List.sum_cons, ht, hhead]
      omega
    · have hmem := hk
      rw [List.map_cons] at hmem
      have hk' : k ∈ t.map Prod.fst := by
        rcases List.mem_cons.mp hmem with he | hm2
        · exact absurd he.symm hpk
        · exact hm2
      have hhead : cnt (if p.1 = k then f p.2 else p.2) = cnt p.2 := by
        rw [if_neg hpk]
      simp only [List.map_cons, List.sum_cons, hhead]
      rw [ih hndt hk']
      omega

/-- `groupUpd` preserves `Nodup` keys. -/
theorem keys_nodup_groupUpd (keyOf : ρ → κ) (init : κ → α) (upd : α → ρ → α)
    (m : List (κ × α)) (hm : (m.map Prod.fst).Nodup) (r : ρ) :
    ((groupUpd keyOf init upd m r).map Prod.fst).Nodup := by
  rw [keys_groupUpd]
  by_cases hs : (alookup (keyOf r) m).isSome
  · rw [if_pos hs]
    exact hm
  · rw [if_neg hs]
    have hnm : keyOf r ∉ m.map Prod.fst := by
      rw [← alookup_isSome_iff_mem_keys (α := α)]
      simp [Option.not_isSome_iff_eq_none.mp (by simpa using hs)]
    simp [List.nodup_append, hm, hnm]

/-- One `groupUpd` step adds exactly one to the total of an
update-incremented counter. -/
theorem groupUpd_cnt_sum (keyOf : ρ → κ) (init : κ → α) (upd : α → ρ → α)
    (cnt : α → ℕ) (h0 : ∀ k, cnt (init k) = 0) (h1 : ∀ a r, cnt (upd a r) = cnt a + 1)
    (m : List (κ × α)) (hnd : (m.map Prod.fst).Nodup) (r : ρ) :
    ((groupUpd keyOf init upd m r).map fun p => cnt p.2).sum =
      ((m.map fun p => cnt p.2).sum) + 1 := by
  unfold groupUpd
  by_cases hs : (alookup (keyOf r) m).isSome
  · rw [if_pos hs]
    exact sum_cnt_map_upd (keyOf r) (fun a => upd a r) cnt (fun a => h1 a r) m hnd
      ((alookup_isSome_iff_mem_keys _ m).mp hs)
  · rw [if_neg hs]
    simp [h0, h1]

/-- Folding from any `Nodup`-keyed map: the counter total grows by the number
of folded records. -/
theorem foldl_groupUpd_cnt_sum (keyOf : ρ → κ) (init : κ → α) (upd : α → ρ → α)
    (cnt : α → ℕ) (h0 : ∀ k, cnt (init k) = 0) (h1 : ∀ a r, cnt (upd a r) = cnt a + 1)
    (l : List ρ) :
    ∀ m : List (κ × α), (m.map Prod.fst).Nodup →
      ((l.foldl (groupUpd keyOf init upd) m).map fun p => cnt p.2).sum =
        ((m.map fun p => cnt p.2).sum) + l.length := by
  induction l with
  | nil =>
    intro m _
    simp
  | cons r t ih =>
    intro m hm
    simp only [List.foldl_cons, List.length_cons]
    rw [ih (groupUpd keyOf init upd m r) (keys_nodup_groupUpd keyOf init upd m hm r),
      groupUpd_cnt_sum keyOf init upd cnt h0 h1 m hm r]
    omega

/-- The counter total of a grouped map is the length of the grouped list:
every record lands in exactly one group. -/
theorem groupFold_cnt_sum (keyOf : ρ → κ) (init : κ → α) (upd : α → ρ → α)
    (cnt : α → ℕ) (h0 : ∀ k, cnt (init k) = 0) (h1 : ∀ a r, cnt (upd a r) = cnt a + 1)
    (l : List ρ) :
    ((groupFold keyOf init upd l).map fun p => cnt p.2).sum = l.length := by
  have h := foldl_groupUpd_cnt_sum keyOf init upd cnt h0 h1 l [] (by simp)
  simpa [groupFold] using h

end GroupFoldCount

/-- The count column of any scenario breakdown sums to the number of grouped
records. -/
theorem rowCountSum_sortStable (le : BucketRow → BucketRow → Bool)
    (rows : List BucketRow) :
    rowCountSum (sortStable le rows) = rowCountSum rows := by
  unfold rowCountSum
  exact List.Perm.sum_eq (List.Perm.map (fun x => x.count) (sortStable_perm le rows))

/-- The count column of any scenario breakdown sums to the number of grouped
records (second step: drop the sort, then count through the grouped map). -/
theorem groupScenario_count_sum (recs : List StoredRecord)
    (keyFn : StoredRecord → String) (sb : Bool) :
    rowCountSum (groupScenario recs keyFn sb) = recs.length := by
  unfold groupScenario finalizeScenarioBuckets
  rw [rowCountSum_sortStable]
  unfold rowCountSum
  rw [List.map_map]
  exact groupFold_cnt_sum (fun r => jsOrSD (some (keyFn r)) "unknown")
    (fun _ => ({} : ScenarioBucketAcc)) addScenarioRecord (fun a => a.count)
    (fun _ => rfl) (fun _ _ => rfl) recs

/-- The ms-per-1k augmentation step does not touch the bucket counts. -/
theorem outRowCountSum_map_augment (rows : List BucketRow) :
    outRowCountSum (rows.map outputRowAugment) = rowCountSum rows := by
  unfold outRowCountSum rowCountSum
  rw [List.map_map]
  rfl

/-- C6: for every input record set and every selected model, in each of the
nine scenario breakdown dimensions the per-bucket counts sum exactly to the
number of records kept for the effective model — every filtered record is
assigned to exactly one bucket per dimension. -/
theorem c6_bucket_partition (records : List StoredRecord) (sel : Option String) :
    rowCountSum (buildScenarioComparisons records sel).input_mode =
      (buildScenarioComparisons records sel).selected_model_record_count ∧
    rowCountSum (buildScenarioComparisons records sel).file_size_bucket =
      (buildScenarioComparisons records sel).selected_model_record_count ∧
    rowCountSum (buildScenarioComparisons records sel).file_kind_set =
      (buildScenarioComparisons records sel).selected_model_record_count ∧
    rowCountSum (buildScenarioComparisons records sel).image_size_bucket =
      (buildScenarioComparisons records sel).selected_model_record_count ∧
    rowCountSum (buildScenarioComparisons records sel).image_count_bucket =
      (buildScenarioComparisons records sel).selected_model_record_count ∧
    rowCountSum (buildScenarioComparisons records sel).current_user_text_size_bucket =
      (buildScenarioComparisons records sel).selected_model_record_count ∧
    rowCountSum (buildScenarioComparisons records sel).runtime_bucket =
      (buildScenarioComparisons records sel).selected_model_record_count ∧
    rowCountSum (buildScenarioComparisons records sel).stop_reason_category =
      (buildScenarioComparisons records sel).selected_model_record_count ∧
    outRowCountSum (buildScenarioComparisons records sel).output_length_bucket =
      (buildScenarioComparisons records sel).selected_model_record_count := by
  refine ⟨?_, ?_, ?_, ?_, ?_, ?_, ?_, ?_, ?_⟩
  · exact groupScenario_count_sum (modelRecordsOf records sel) inputModeKey true
  · exact groupScenario_count_sum (modelRecordsOf records sel) fileSizeKey false
  · exact groupScenario_count_sum (modelRecordsOf records sel) fileKindKey true
  · exact groupScenario_count_sum (modelRecordsOf records sel) imageSizeKey false
  · exact groupScenario_count_sum (modelRecordsOf records sel) imageCountKey false
  · exact groupScenario_count_sum (modelRecordsOf records sel) userTextSizeKey false
  · exact groupScenario_count_sum (modelRecordsOf records sel) runtimeBucketKey true
  · exact groupScenario_count_sum (modelRecordsOf records sel) stopReasonKey true
  · show outRowCountSum ((groupScenario (modelRecordsOf records sel) outputLengthKey
        false).map outputRowAugment) = (modelRecordsOf records sel).length
    rw [outRowCountSum_map_augment]
    exact groupScenario_count_sum (modelRecordsOf records sel) outputLengthKey false

section AlookupMem

variable {κ α : Type _} [DecidableEq κ]

/-- With `Nodup` keys, membership determines the lookup result. -/
theorem alookup_eq_of_mem :
    ∀ m : List (κ × α), (m.map Prod.fst).Nodup → ∀ p : κ × α, p ∈ m →
      alookup p.1 m = some p.2 := by
  intro m
  induction m with
  | nil =>
    intro _ p hp
    exact absurd hp (List.not_mem_nil p)
  | cons q t ih =>
    intro hnd p hp
    obtain ⟨qk, qv⟩ := q
    rw [List.map_cons, List.nodup_cons] at hnd
    obtain ⟨hq, hndt⟩ := hnd
    rcases List.mem_cons.mp hp with he | hm
    · subst he
      simp [alookup]
    · have hne : ¬ qk = p.1 := by
        intro h2
        have hmm : p.1 ∈ t.map Prod.fst := List.mem_map_of_mem Prod.fst hm
        rw [← h2] at hmm
        exact hq hmm
      simp only [alookup]
      rw [if_neg hne]
      exact ih hndt p hm

end AlookupMem

/-- Membership in the sorted-set insertion. -/
theorem mem_insertSortedStr (x z : String) :
    ∀ m : List String, z ∈ insertSortedStr x m ↔ z = x ∨ z ∈ m := by
  intro m
  induction m with
  | nil => simp [insertSortedStr]
  | cons y ys ih =>
    unfold insertSortedStr
    by_cases hxy : x = y
    · rw [if_pos hxy]
      subst hxy
      simp [List.mem_cons]
    · rw [if_neg hxy]
      by_cases hle : strLe x y
      · rw [if_pos hle]
        simp [List.mem_cons]
      · rw [if_neg hle]
        simp only [List.mem_cons, ih]
        tauto

/-- `strLe` is reflexive. -/
theorem strLe_refl (a : String) : strLe a a = true := by
  rcases strLe_total a a with h | h <;> exact h

/-- The sorted-set insertion keeps the list strictly sorted. -/
theorem insertSortedStr_sorted (x : String) :
    ∀ m : List String,
      m.Pairwise (fun a b => strLe a b = true ∧ ¬ a = b) →
      (insertSortedStr x m).Pairwise (fun a b => strLe a b = true ∧ ¬ a = b) := by
  intro m
  induction m with
  | nil =>
    intro _
    simp [insertSortedStr]
  | cons y ys ih =>
    intro hp
    rw [List.pairwise_cons] at hp
    obtain ⟨hy, hys⟩ := hp
    unfold insertSortedStr
    by_cases hxy : x = y
    · rw [if_pos hxy]
      exact List.pairwise_cons.mpr ⟨hy, hys⟩
    · rw [if_neg hxy]
      by_cases hle : strLe x y
      · rw [if_pos hle]
        refine List.pairwise_cons.mpr ⟨?_, List.pairwise_cons.mpr ⟨hy, hys⟩⟩
        intro z hz
        rcases List.mem_cons.mp hz with hzy | hzys
        · subst hzy
          exact ⟨hle, hxy⟩
        · obtain ⟨hyz, _⟩ := hy z hzys
          refine ⟨strLe_trans hle hyz, ?_⟩
          intro hxz
          subst hxz
          exact hxy (strLe_antisymm hle hyz)
      · rw [if_neg hle]
        have hyx : strLe y x = true := by
          rcases strLe_total x y with h | h
          · exact absurd h hle
          · exact h
        refine List.pairwise_cons.mpr ⟨?_, ih hys⟩
        intro z hz
        rcases (mem_insertSortedStr x z ys).mp hz with hzx | hzys
        · subst hzx
          refine ⟨hyx, ?_⟩
          intro hyz
          rw [← hyz] at hle
          exact hle (strLe_refl y)
        · exact hy z hzys

/-- The sorted-set insertion realizes `Finset.insert` on contents. -/
theorem toFinset_insertSortedStr (x : String) (m : List String) :
    (insertSortedStr x m).toFinset = insert x m.toFinset := by
  apply Finset.ext
  intro z
  simp [List.mem_toFinset, mem_insertSortedStr]

/-- A strictly sorted list has no duplicates. -/
theorem nodup_of_sortedStr {m : List String}
    (h : m.Pairwise (fun a b => strLe a b = true ∧ ¬ a = b)) : m.Nodup :=
  h.imp (fun hab => hab.2)

/-- Folding hash-keyed records into a prompt-hash group accumulator: the
count grows by the number of records, and the input-mode set accumulates
exactly the records' input-mode labels, kept strictly sorted. -/
theorem foldl_promptHashStep_spec (l : List (String × StoredRecord)) :
    ∀ a : PromptHashAcc,
      a.inputModes.Pairwise (fun x y => strLe x y = true ∧ ¬ x = y) →
      (l.foldl promptHashStep a).count = a.count + l.length ∧
      (l.foldl promptHashStep a).inputModes.Pairwise
        (fun x y => strLe x y = true ∧ ¬ x = y) ∧
      (l.foldl promptHashStep a).inputModes.toFinset =
        a.inputModes.toFinset ∪ (l.map fun p => inputModeKey p.2).toFinset := by
  induction l with
  | nil =>
    intro a ha
    refine ⟨by simp, ha, by simp⟩
  | cons p t ih =>
    intro a ha
    simp only [List.foldl_cons, List.map_cons, List.length_cons]
    obtain ⟨hc, hsorted, hf⟩ := ih (promptHashStep a p)
      (insertSortedStr_sorted _ _ ha)
    refine ⟨?_, hsorted, ?_⟩
    · rw [hc]
      show a.count + 1 + t.length = a.count + (t.length + 1)
      omega
    · rw [hf]
      show (insertSortedStr (inputModeKey p.2) a.inputModes).toFinset ∪
          (t.map fun q => inputModeKey q.2).toFinset = _
      rw [toFinset_insertSortedStr]
      apply Finset.ext
      intro z
      simp only [Finset.mem_union, Finset.mem_insert, List.toFinset_cons]
      tauto

/-- `prompt_hash_controls` comparator: total. -/
theorem controlLe_total (a b : ControlRow) :
    controlLe a b = true ∨ controlLe b a = true := by
  unfold controlLe
  rcases le_total b.requests a.requests with h | h
  · left
    exact decide_eq_true h
  · right
    exact decide_eq_true h

/-- `prompt_hash_controls` comparator: transitive. -/
theorem controlLe_trans (a b c : ControlRow) (h1 : controlLe a b = true)
    (h2 : controlLe b c = true) : controlLe a c = true := by
  unfold controlLe at h1 h2 ⊢
  exact decide_eq_true (le_trans (of_decide_eq_true h2) (of_decide_eq_true h1))

/-- C10: the `prompt_hash_controls` table has at most 30 rows, is sorted by
request count descending, and every row publishes a 12-character hash prefix
of a real prompt-hash group of the filtered records that spans more than one
distinct input-mode label, with its exact request and distinct-scenario
counts. -/
theorem c10_prompt_hash_controls (records : List StoredRecord) (sel : Option String) :
    (buildScenarioComparisons records sel).prompt_hash_controls.length ≤ 30 ∧
    (buildScenarioComparisons records sel).prompt_hash_controls.Pairwise
      (fun x y => y.requests ≤ x.requests) ∧
    ∀ row ∈ (buildScenarioComparisons records sel).prompt_hash_controls,
      1 < row.scenario_count ∧ controlRowFromGroup records sel row := by
  refine ⟨?_, ?_, ?_⟩
  · show ((sortStable controlLe
        (((promptHashMapOf records sel).filter fun p =>
          1 < p.2.inputModes.length).map controlRowOf)).take 30).length ≤ 30
    exact List.length_take_le 30 _
  · show ((sortStable controlLe
        (((promptHashMapOf records sel).filter fun p =>
          1 < p.2.inputModes.length).map controlRowOf)).take 30).Pairwise
      (fun x y => y.requests ≤ x.requests)
    have hp := (sortStable_pairwise controlLe controlLe_total controlLe_trans
      (((promptHashMapOf records sel).filter fun p =>
        1 < p.2.inputModes.length).map controlRowOf)).imp
      (fun hab => of_decide_eq_true hab)
    exact hp.sublist (List.take_sublist _ _)
  · intro row hrow
    have hrow1 : row ∈ sortStable controlLe
        (((promptHashMapOf records sel).filter fun p =>
          1 < p.2.inputModes.length).map controlRowOf) :=
      (List.take_sublist _ _).subset hrow
    have hrow2 : row ∈ ((promptHashMapOf records sel).filter fun p =>
        1 < p.2.inputModes.length).map controlRowOf :=
      (sortStable_perm _ _).mem_iff.mp hrow1
    rcases List.mem_map.mp hrow2 with ⟨p, hpf, hrowp⟩
    rcases List.mem_filter.mp hpf with ⟨hpmem, hplen⟩
    have hlen : 1 < p.2.inputModes.length := of_decide_eq_true hplen
    have hald : alookup p.1 (promptHashMapOf records sel) = some p.2 :=
      alookup_eq_of_mem _ (keys_nodup_groupFold _ _ _ _) p hpmem
    rw [show promptHashMapOf records sel = groupFold Prod.fst
        (fun _ => ({} : PromptHashAcc)) promptHashStep
        (hashedPairsOf records sel) from rfl,
      alookup_groupFold] at hald
    by_cases he : ((hashedPairsOf records sel).filter fun r => r.1 = p.1).isEmpty
    · rw [if_pos he] at hald
      exact absurd hald (by simp)
    · rw [if_neg he] at hald
      have hacc : p.2 = ((hashedPairsOf records sel).filter
          fun r => r.1 = p.1).foldl promptHashStep {} := by
        injection hald.symm
      obtain ⟨hc, hsorted, hf⟩ := foldl_promptHashStep_spec
        ((hashedPairsOf records sel).filter fun r => r.1 = p.1) {} (by simp)
      have hne : ((hashedPairsOf records sel).filter fun r => r.1 = p.1) ≠ [] := by
        intro h2
        rw [h2] at he
        exact he rfl
      obtain ⟨q, hq⟩ := List.exists_mem_of_ne_nil _ hne
      rcases List.mem_filter.mp hq with ⟨hqmem, hqkey⟩
      have hqk : q.1 = p.1 := of_decide_eq_true hqkey
      rcases List.mem_filterMap.mp hqmem with ⟨r, hrmem, hrq⟩
      rcases Option.map_eq_some'.mp hrq with ⟨hsh, hhash, hpair⟩
      constructor
      · rw [← hrowp]
        exact hlen
      · refine ⟨p.1, ?_, ⟨r, hrmem, ?_⟩, ?_, ?_⟩
        · rw [← hrowp]
          rfl
        · rw [hhash]
          have : hsh = q.1 := by
            rw [← hpair]
          rw [this, hqk]
        · rw [← hrowp]
          show p.2.count = _
          rw [hacc, hc]
          simp
        · rw [← hrowp]
          show p.2.inputModes.length = _
          rw [hacc]
          rw [← List.toFinset_card_of_nodup (nodup_of_sortedStr hsorted)]
          rw [hf]
          simp

theorem c10_prompt_hash_controls_witness :
    ({ prompt_hash_pfx := "hash-1"
       requests := 2
       scenario_count := 2
       scenarios := "text+file, text_only"
       avg_predicted_tps := none } : ControlRow) ∈
      (buildScenarioComparisons [c10recText, c10recFile] none).prompt_hash_controls ∧
    (1 < ({ prompt_hash_pfx := "hash-1"
            requests := 2
            scenario_count := 2
            scenarios := "text+file, text_only"
            avg_predicted_tps := none } : ControlRow).scenario_count ∧
      controlRowFromGroup [c10recText, c10recFile] none
        { prompt_hash_pfx := "hash-1"
          requests := 2
          scenario_count := 2
          scenarios := "text+file, text_only"
          avg_predicted_tps := none }) := by
  have hmem : ({ prompt_hash_pfx := "hash-1"
                 requests := 2
                 scenario_count := 2
                 scenarios := "text+file, text_only"
                 avg_predicted_tps := none } : ControlRow) ∈
      (buildScenarioComparisons [c10recText, c10recFile] none).prompt_hash_controls := by
    decide
  exact ⟨hmem, (c10_prompt_hash_controls [c10recText, c10recFile] none).2.2 _ hmem⟩

/-! ## Right-commutativity of the aggregation fold steps -/

/-- Pushing two optional samples commutes. -/
theorem Acc2.push_comm (a : Acc2) (x y : Option ℚ) :
    (a.push x).push y = (a.push y).push x := by
  rcases x with _ | v <;> rcases y with _ | w <;>
    simp [Acc2.push, Acc2.mk.injEq, add_right_comm]

/-- The running maximum of an update with a present sample. -/
theorem maxOpt_some (c : Option ℚ) (v : ℚ) :
    maxOpt c (some v) = some (max (c.getD v) v) := by
  rcases c with _ | cc
  · simp [maxOpt]
  · simp only [maxOpt, Option.getD_some]
    split_ifs with h
    · rw [max_eq_right (le_of_lt h)]
    · rw [max_eq_left (le_of_not_lt h)]

/-- The running-maximum update commutes. -/
theorem maxOpt_rightcomm (c x y : Option ℚ) :
    maxOpt (maxOpt c x) y = maxOpt (maxOpt c y) x := by
  rcases x with _ | v
  · rcases y with _ | w <;> simp [maxOpt]
  · rcases y with _ | w
    · simp [maxOpt]
    · rw [maxOpt_some, maxOpt_some, maxOpt_some, maxOpt_some]
      rcases c with _ | cc <;>
        simp [Option.getD_none, Option.getD_some, max_self, max_left_comm, max_comm]

/-- The global summary fold step is right-commutative. -/
theorem summaryStep_comm (a : SummaryAcc) (r₁ r₂ : StoredRecord) :
    summaryStep (summaryStep a r₁) r₂ = summaryStep (summaryStep a r₂) r₁ := by
  simp only [summaryStep, SummaryAcc.mk.injEq]
  and_intros <;>
    first
      | exact Acc2.push_comm _ _ _
      | exact maxOpt_rightcomm _ _ _
      | (split_ifs <;> omega)
      | rfl
      | trivial

/-- The per-model fold step is right-commutative. -/
theorem modelStep_comm (a : ModelAcc) (r₁ r₂ : StoredRecord) :
    modelStep (modelStep a r₁) r₂ = modelStep (modelStep a r₂) r₁ := by
  simp only [modelStep, ModelAcc.mk.injEq]
  and_intros <;>
    first
      | exact Acc2.push_comm _ _ _
      | exact maxOpt_rightcomm _ _ _
      | (split_ifs <;> omega)
      | rfl
      | trivial

/-- The scenario-bucket fold step is right-commutative. -/
theorem addScenarioRecord_comm (a : ScenarioBucketAcc) (r₁ r₂ : StoredRecord) :
    addScenarioRecord (addScenarioRecord a r₁) r₂ =
      addScenarioRecord (addScenarioRecord a r₂) r₁ := by
  simp only [addScenarioRecord, ScenarioBucketAcc.mk.injEq]
  and_intros <;>
    first
      | exact Acc2.push_comm _ _ _
      | (split_ifs <;> omega)
      | rfl
      | trivial

/-- Sorted-set insertion of two distinct, ordered elements commutes
(auxiliary: `x` strictly before `y`). -/
theorem insertSortedStr_comm_aux (x y : String) (hxy : ¬ x = y)
    (hlxy : strLe x y = true) :
    ∀ m : List String,
      insertSortedStr x (insertSortedStr y m) =
        insertSortedStr y (insertSortedStr x m) := by
  have hsym : ¬ y = x := fun h => hxy h.symm
  have hlyx : strLe y x = false := by
    cases h2 : strLe y x
    · rfl
    · exact absurd (strLe_antisymm hlxy h2) hxy
  intro m
  induction m with
  | nil => simp [insertSortedStr, hxy, hsym, hlxy, hlyx]
  | cons z zs ih =>
    by_cases hxz : x = z
    · subst hxz
      simp [insertSortedStr, hsym, hlyx]
    · by_cases hyz : y = z
      · subst hyz
        simp [insertSortedStr, hxy, hsym, hlxy, hlyx]
      · by_cases hlxz : strLe x z = true
        · by_cases hlyz : strLe y z = true
          · simp [insertSortedStr, hxy, hsym, hlxy, hlyx, hxz, hyz, hlxz, hlyz]
          · simp [insertSortedStr, hxy, hsym, hlxy, hlyx, hxz, hyz, hlxz, hlyz]
        · by_cases hlyz : strLe y z = true
          · exact absurd (strLe_trans hlxy hlyz) hlxz
          · simp [insertSortedStr, hxz, hyz, hlxz, hlyz, ih]

/-- Sorted-set insertion commutes. -/
theorem insertSortedStr_comm (x y : String) (m : List String) :
    insertSortedStr x (insertSortedStr y m) =
      insertSortedStr y (insertSortedStr x m) := by
  by_cases hxy : x = y
  · subst hxy
    rfl
  · rcases strLe_total x y with h | h
    · exact insertSortedStr_comm_aux x y hxy h m
    · exact (insertSortedStr_comm_aux y x (fun h2 => hxy h2.symm) h m).symm

/-- The prompt-hash group fold step is right-commutative. -/
theorem promptHashStep_comm (a : PromptHashAcc) (p₁ p₂ : String × StoredRecord) :
    promptHashStep (promptHashStep a p₁) p₂ =
      promptHashStep (promptHashStep a p₂) p₁ := by
  simp only [promptHashStep, PromptHashAcc.mk.injEq]
  and_intros <;>
    first
      | exact Acc2.push_comm _ _ _
      | exact insertSortedStr_comm _ _ _
      | rfl
      | trivial

section AlookupPerm

variable {κ α : Type _} [DecidableEq κ]

/-- A successful lookup is a member. -/
theorem alookup_some_mem :
    ∀ (m : List (κ × α)) (k : κ) (v : α), alookup k m = some v → (k, v) ∈ m := by
  intro m
  induction m with
  | nil =>
    intro k v h
    exact absurd h (by simp [alookup])
  | cons p t ih =>
    intro k v h
    obtain ⟨pk, pv⟩ := p
    simp only [alookup] at h
    by_cases he : pk = k
    · rw [if_pos he] at h
      subst he
      injection h with h2
      subst h2
      exact List.mem_cons_self _ _
    · rw [if_neg he] at h
      exact List.mem_cons_of_mem _ (ih k v h)

/-- Lookup is invariant under permutation of a `Nodup`-keyed map. -/
theorem alookup_eq_of_perm {m₁ m₂ : List (κ × α)} (hperm : m₁.Perm m₂)
    (hnd : (m₁.map Prod.fst).Nodup) (k : κ) : alookup k m₁ = alookup k m₂ := by
  have hnd₂ : (m₂.map Prod.fst).Nodup := (hperm.map Prod.fst).nodup_iff.mp hnd
  cases h1 : alookup k m₁ with
  | some v =>
    have hm2 := hperm.mem_iff.mp (alookup_some_mem m₁ k v h1)
    exact (alookup_eq_of_mem m₂ hnd₂ (k, v) hm2).symm
  | none =>
    cases h2 : alookup k m₂ with
    | none => rfl
    | some v =>
      have hm1 := hperm.symm.mem_iff.mp (alookup_some_mem m₂ k v h2)
      have h3 := alookup_eq_of_mem m₁ hnd (k, v) hm1
      rw [h1] at h3
      exact Option.noConfusion h3

end AlookupPerm

/-- C4 counterexample: two single-completion records for models `"a"` and
`"b"` tie under the model comparator (equal completion counts, equal null
throughput), so the stable sort keeps their first-seen order — permuting the
input permutes the `models` table rows, and `buildDashboardStats` is **not**
permutation-invariant as claimed. -/
theorem c4_counterexample :
    ([recModelA, recModelB].Perm [recModelB, recModelA]) ∧
    (buildDashboardStats [recModelA, recModelB]).models.map (fun m => m.model) =
      ["a", "b"] ∧
    (buildDashboardStats [recModelB, recModelA]).models.map (fun m => m.model) =
      ["b", "a"] ∧
    buildDashboardStats [recModelA, recModelB] ≠
      buildDashboardStats [recModelB, recModelA] := by
  have hab : (buildDashboardStats [recModelA, recModelB]).models.map
      (fun m => m.model) = ["a", "b"] := rfl
  have hba : (buildDashboardStats [recModelB, recModelA]).models.map
      (fun m => m.model) = ["b", "a"] := rfl
  refine ⟨List.Perm.swap recModelB recModelA [], hab, hba, ?_⟩
  intro hcontra
  have h2 : (buildDashboardStats [recModelA, recModelB]).models.map
      (fun m => m.model) =
      (buildDashboardStats [recModelB, recModelA]).models.map
        (fun m => m.model) :=
    congrArg (fun d : DashboardStats => d.models.map fun m => m.model) hcontra
  rw [hab, hba] at h2
  exact absurd h2 (by decide)

/-- `model_options` comparator: total. -/
theorem modelOptionLe_total (a b : ModelOption) :
    modelOptionLe a b = true ∨ modelOptionLe b a = true := by
  unfold modelOptionLe
  by_cases hc : a.count = b.count
  · rcases strLe_total a.model b.model with h | h
    · left
      simp [hc, h]
    · right
      simp [hc, h]
  · rcases Nat.lt_or_ge a.count b.count with h | h
    · right
      simp [h]
    · left
      have h2 : b.count < a.count := lt_of_le_of_ne h (fun h2 => hc h2.symm)
      simp [h2]

/-- `model_options` comparator: transitive. -/
theorem modelOptionLe_trans (a b c : ModelOption) (h1 : modelOptionLe a b = true)
    (h2 : modelOptionLe b c = true) : modelOptionLe a c = true := by
  unfold modelOptionLe at h1 h2 ⊢
  simp only [Bool.or_eq_true, Bool.and_eq_true, decide_eq_true_eq] at h1 h2 ⊢
  rcases h1 with h1 | ⟨h1e, h1m⟩
  · rcases h2 with h2 | ⟨h2e, _⟩
    · left
      omega
    · left
      omega
  · rcases h2 with h2 | ⟨h2e, h2m⟩
    · left
      omega
    · right
      exact ⟨by omega, strLe_trans h1m h2m⟩

/-- `model_options` comparator: antisymmetric (the model string breaks count
ties, and an option is exactly its model and count). -/
theorem modelOptionLe_antisymm (a b : ModelOption) (h1 : modelOptionLe a b = true)
    (h2 : modelOptionLe b a = true) : a = b := by
  unfold modelOptionLe at h1 h2
  simp only [Bool.or_eq_true, Bool.and_eq_true, decide_eq_true_eq] at h1 h2
  rcases h1 with h1 | ⟨h1e, h1m⟩
  · rcases h2 with h2 | ⟨h2e, _⟩
    · exfalso
      omega
    · exfalso
      omega
  · rcases h2 with h2 | ⟨h2e, h2m⟩
    · exfalso
      omega
    · have hm := strLe_antisymm h1m h2m
      have hc : a.count = b.count := by omega
      cases a
      cases b
      simp_all

/-- `model_options` is identical on permuted inputs: the per-model counts are
a permuted `Nodup`-keyed map, and the comparator is a total order on option
rows. -/
theorem modelOptionsOf_perm_eq {l₁ l₂ : List StoredRecord} (hperm : l₁.Perm l₂) :
    modelOptionsOf l₁ = modelOptionsOf l₂ := by
  have hcperm : (modelCountsOf l₁).Perm (modelCountsOf l₂) :=
    groupFold_perm modelOf (fun _ => (0 : ℕ)) (fun n _ => n + 1)
      (fun a r₁ r₂ => rfl) (hperm.filter _)
  unfold modelOptionsOf
  apply eq_of_perm_pairwise_nodup_key (fun o : ModelOption => o)
    (fun a b => modelOptionLe a b = true) modelOptionLe_antisymm
  · exact (sortStable_perm _ _).trans ((hcperm.map _).trans (sortStable_perm _ _).symm)
  · exact sortStable_pairwise _ modelOptionLe_total modelOptionLe_trans _
  · exact sortStable_pairwise _ modelOptionLe_total modelOptionLe_trans _
  · have h1 := (sortStable_perm modelOptionLe ((modelCountsOf l₁).map fun p =>
      ({ model := p.1, count := p.2 } : ModelOption))).map (fun o : ModelOption => o)
    refine h1.nodup_iff.mpr ?_
    rw [List.map_id']
    have hnd : (modelCountsOf l₁).Nodup :=
      List.Nodup.of_map Prod.fst (keys_nodup_groupFold _ _ _ _)
    have hinj : Function.Injective (fun p : String × ℕ =>
        ({ model := p.1, count := p.2 } : ModelOption)) := by
      intro p q hpq
      have ha : p.1 = q.1 := congrArg ModelOption.model hpq
      have hb : p.2 = q.2 := congrArg ModelOption.count hpq
      exact Prod.ext ha hb
    exact List.Nodup.map hinj hnd

/-- The effective model selection is invariant under permutation. -/
theorem effectiveModelOf_perm_eq {l₁ l₂ : List StoredRecord} (hperm : l₁.Perm l₂)
    (sel : Option String) : effectiveModelOf l₁ sel = effectiveModelOf l₂ sel := by
  have hcperm : (modelCountsOf l₁).Perm (modelCountsOf l₂) :=
    groupFold_perm modelOf (fun _ => (0 : ℕ)) (fun n _ => n + 1)
      (fun a r₁ r₂ => rfl) (hperm.filter _)
  unfold effectiveModelOf
  rw [modelOptionsOf_perm_eq hperm]
  cases truthyS sel with
  | none => rfl
  | some m =>
    dsimp only
    rw [alookup_eq_of_perm hcperm (keys_nodup_groupFold _ _ _ _) m]

/-- The effective model's record list is permuted along with the input. -/
theorem modelRecordsOf_perm {l₁ l₂ : List StoredRecord} (hperm : l₁.Perm l₂)
    (sel : Option String) : (modelRecordsOf l₁ sel).Perm (modelRecordsOf l₂ sel) := by
  unfold modelRecordsOf
  rw [effectiveModelOf_perm_eq hperm sel]
  cases effectiveModelOf l₂ sel with
  | none => exact List.Perm.refl []
  | some m => exact (hperm.filter _).filter _

/-- The `models` tables of permuted inputs are permutations. -/
theorem buildDashboardStats_models_perm {l₁ l₂ : List StoredRecord}
    (h : l₁.Perm l₂) :
    (buildDashboardStats l₁).models.Perm (buildDashboardStats l₂).models := by
  show (sortStable modelRowLe ((perModelOf l₁).map modelRowOf)).Perm
    (sortStable modelRowLe ((perModelOf l₂).map modelRowOf))
  exact (sortStable_perm _ _).trans
    (((groupFold_perm _ _ _ modelStep_comm (h.filter _)).map _).trans
      (sortStable_perm _ _).symm)

/-- The dashboard summary is identical on permuted inputs. -/
theorem buildDashboardStats_summary_eq {l₁ l₂ : List StoredRecord}
    (h : l₁.Perm l₂) :
    (buildDashboardStats l₁).summary = (buildDashboardStats l₂).summary := by
  have hclean : (cleanRecords l₁).Perm (cleanRecords l₂) := h.filter _
  have hacc : (cleanRecords l₁).foldl summaryStep {} =
      (cleanRecords l₂).foldl summaryStep {} :=
    @List.Perm.foldl_eq _ _ summaryStep _ _ ⟨summaryStep_comm⟩ hclean {}
  have hlen := hclean.length_eq
  have hm := (buildDashboardStats_models_perm h).length_eq
  simp only [buildDashboardStats]
  rw [hacc, hlen]
  rw [show (sortStable modelRowLe ((perModelOf l₁).map modelRowOf)).length =
      (sortStable modelRowLe ((perModelOf l₂).map modelRowOf)).length from hm]

/-- Any count-sorted scenario breakdown is permuted along with its records. -/
theorem groupScenario_perm {r₁ r₂ : List StoredRecord} (h : r₁.Perm r₂)
    (kf : StoredRecord → String) (sb : Bool) :
    (groupScenario r₁ kf sb).Perm (groupScenario r₂ kf sb) := by
  unfold groupScenario finalizeScenarioBuckets
  exact (sortStable_perm _ _).trans
    (((groupFold_perm _ _ _ addScenarioRecord_comm h).map _).trans
      (sortStable_perm _ _).symm)

/-- A label-sorted scenario breakdown is **identical** on permuted records:
labels are the distinct grouping keys and the label order is total. -/
theorem groupScenario_label_eq {r₁ r₂ : List StoredRecord} (h : r₁.Perm r₂)
    (kf : StoredRecord → String) :
    groupScenario r₁ kf false = groupScenario r₂ kf false := by
  have hmperm : (groupFold (fun r => jsOrSD (some (kf r)) "unknown")
      (fun _ => ({} : ScenarioBucketAcc)) addScenarioRecord r₁).Perm
      (groupFold (fun r => jsOrSD (some (kf r)) "unknown")
        (fun _ => ({} : ScenarioBucketAcc)) addScenarioRecord r₂) :=
    groupFold_perm _ _ _ addScenarioRecord_comm h
  show sortStable bucketLeLabel ((groupFold (fun r => jsOrSD (some (kf r)) "unknown")
      (fun _ => ({} : ScenarioBucketAcc)) addScenarioRecord r₁).map bucketRowOf) =
    sortStable bucketLeLabel ((groupFold (fun r => jsOrSD (some (kf r)) "unknown")
      (fun _ => ({} : ScenarioBucketAcc)) addScenarioRecord r₂).map bucketRowOf)
  apply eq_of_perm_pairwise_nodup_key (fun row : BucketRow => row.label)
    (fun s t => strLe s t = true) (fun s t h1 h2 => strLe_antisymm h1 h2)
  · exact (sortStable_perm _ _).trans ((hmperm.map _).trans (sortStable_perm _ _).symm)
  · exact sortStable_pairwise bucketLeLabel (fun a b => strLe_total a.label b.label)
      (fun a b c hab hbc => strLe_trans hab hbc) _
  · exact sortStable_pairwise bucketLeLabel (fun a b => strLe_total a.label b.label)
      (fun a b c hab hbc => strLe_trans hab hbc) _
  · have h1 := (sortStable_perm bucketLeLabel ((groupFold
      (fun r => jsOrSD (some (kf r)) "unknown")
      (fun _ => ({} : ScenarioBucketAcc)) addScenarioRecord r₁).map bucketRowOf)).map
      (fun row : BucketRow => row.label)
    refine h1.nodup_iff.mpr ?_
    rw [List.map_map]
    exact keys_nodup_groupFold _ _ _ _

/-- C4 (amended): permuting the input records leaves the dashboard summary
and every scenario aggregate identical; ordered tables are identical where
their comparator is total on the rows (label-sorted breakdowns,
`model_options`), and permutations of each other where comparator ties are
broken by insertion order (the `models` table, the count-sorted breakdowns)
or a top-N truncation may cut a tied tail (`file_vs_text`,
`prompt_hash_controls`, stated below their truncation thresholds). The
original claim of identical outputs including row order is refuted by the
counterexample. -/
theorem c4_aggregation_perm (l₁ l₂ : List StoredRecord) (sel : Option String)
    (hperm : l₁.Perm l₂) : aggregationPermInvariant l₁ l₂ sel := by
  have hmr := modelRecordsOf_perm hperm sel
  refine ⟨buildDashboardStats_summary_eq hperm,
    buildDashboardStats_models_perm hperm,
    effectiveModelOf_perm_eq hperm sel,
    modelOptionsOf_perm_eq hperm,
    hmr.length_eq,
    groupScenario_perm hmr inputModeKey true,
    groupScenario_perm hmr fileKindKey true,
    groupScenario_perm hmr runtimeBucketKey true,
    groupScenario_perm hmr stopReasonKey true,
    groupScenario_label_eq hmr fileSizeKey,
    groupScenario_label_eq hmr imageSizeKey,
    groupScenario_label_eq hmr imageCountKey,
    groupScenario_label_eq hmr userTextSizeKey,
    congrArg (List.map outputRowAugment) (groupScenario_label_eq hmr outputLengthKey),
    ?_, ?_⟩
  · intro hlen
    show ((sortStable fvtLe (((modelRecordsOf l₁ sel).map fvtRowOf).filter fun x =>
        x.file_bytes_total.isSome || x.current_user_text_bytes.isSome)).take 50).Perm
      ((sortStable fvtLe (((modelRecordsOf l₂ sel).map fvtRowOf).filter fun x =>
        x.file_bytes_total.isSome || x.current_user_text_bytes.isSome)).take 50)
    have hfp : ((((modelRecordsOf l₁ sel).map fvtRowOf).filter fun x =>
        x.file_bytes_total.isSome || x.current_user_text_bytes.isSome)).Perm
        ((((modelRecordsOf l₂ sel).map fvtRowOf).filter fun x =>
          x.file_bytes_total.isSome || x.current_user_text_bytes.isSome)) :=
      (hmr.map _).filter _
    rw [List.take_of_length_le, List.take_of_length_le]
    · exact (sortStable_perm _ _).trans (hfp.trans (sortStable_perm _ _).symm)
    · rw [(sortStable_perm _ _).length_eq, ← hfp.length_eq]
      exact hlen
    · rw [(sortStable_perm _ _).length_eq]
      exact hlen
  · intro hlen
    show ((sortStable controlLe (((promptHashMapOf l₁ sel).filter fun p =>
        1 < p.2.inputModes.length).map controlRowOf)).take 30).Perm
      ((sortStable controlLe (((promptHashMapOf l₂ sel).filter fun p =>
        1 < p.2.inputModes.length).map controlRowOf)).take 30)
    have hmp : (promptHashMapOf l₁ sel).Perm (promptHashMapOf l₂ sel) :=
      groupFold_perm Prod.fst (fun _ => ({} : PromptHashAcc)) promptHashStep
        promptHashStep_comm (hmr.filterMap _)
    have hfp : ((((promptHashMapOf l₁ sel).filter fun p =>
        1 < p.2.inputModes.length).map controlRowOf)).Perm
        ((((promptHashMapOf l₂ sel).filter fun p =>
          1 < p.2.inputModes.length).map controlRowOf)) :=
      (hmp.filter _).map _
    rw [List.take_of_length_le, List.take_of_length_le]
    · exact (sortStable_perm _ _).trans (hfp.trans (sortStable_perm _ _).symm)
    · rw [(sortStable_perm _ _).length_eq, List.length_map,
        ← (hmp.filter _).length_eq]
      exact hlen
    · rw [(sortStable_perm _ _).length_eq, List.length_map]
      exact hlen

theorem c4_aggregation_perm_witness :
    ([recModelA, recModelB].Perm [recModelB, recModelA]) ∧
    aggregationPermInvariant [recModelA, recModelB] [recModelB, recModelA] none :=
  ⟨List.Perm.swap recModelB recModelA [],
    c4_aggregation_perm [recModelA, recModelB] [recModelB, recModelA] none
      (List.Perm.swap recModelB recModelA [])⟩

/-! ## Correlator lemmas -/

theorem toPositiveInt_intCast (n : ℤ) (h : 0 < n) :
    toPositiveInt (some ((n : ℤ) : ℚ)) = some n := by
  unfold toPositiveInt
  simp [Int.floor_intCast, h]

theorem looksLikeFirstTurn_userCount {s : Signals}
    (hft : looksLikeFirstTurn s = true) : s.userCount = some 1 := by
  unfold looksLikeFirstTurn at hft
  by_cases h : s.userCount ≠ some 1
  · simp [h] at hft
  · exact not_not.mp h

/-- Rotation fires for a first-turn-shaped record whenever the previous record
for the context is further back than the duplicate-prompt window. -/
theorem shouldRotate_firstTurn_gap (st : ChainState) (sig : Signals) (ts tl : ℚ)
    (so : Option String) (hft : looksLikeFirstTurn sig = true)
    (hls : st.last_seen_ms = some tl)
    (hgap : chainDuplicatePromptWindowMs < ts - tl) :
    shouldRotateChain (some st) sig ts so = true := by
  have hdec : decide (ts - tl ≤ chainDuplicatePromptWindowMs) = false :=
    decide_eq_false (not_le.mpr hgap)
  unfold shouldRotateChain
  simp only [hls, hft]
  split_ifs with h1 h2 h3
  · rfl
  · rfl
  · rfl
  · simp only [hdec, Bool.and_false, Bool.not_false]

/-- Rotation never fires for a first-turn record replayed with an unchanged,
non-empty prompt hash within the duplicate-prompt window, against the state
the correlator itself wrote for the first occurrence. -/
theorem shouldRotate_firstTurn_duplicate (st : ChainState) (sig : Signals)
    (ts tl : ℚ) (so : Option String) (h : String)
    (hft : looksLikeFirstTurn sig = true)
    (hls : st.last_seen_ms = some tl)
    (hor : st.ui_origin = jsToNullS sig.uiOrigin)
    (huc : st.last_user_count = sig.userCount.map fun n => ((n : ℤ) : ℚ))
    (hph : sig.promptHash = some h) (hh : h ≠ "")
    (hst : st.last_prompt_hash = some h)
    (hwin : ts - tl ≤ chainDuplicatePromptWindowMs) :
    shouldRotateChain (some st) sig ts so = false := by
  have huser := looksLikeFirstTurn_userCount hft
  have hidle : decide (ts - tl > chainStateIdleResetMs) = false := by
    apply decide_eq_false
    unfold chainStateIdleResetMs
    unfold chainDuplicatePromptWindowMs at hwin
    push_neg
    linarith
  have hwindec : decide (ts - tl ≤ chainDuplicatePromptWindowMs) = true :=
    decide_eq_true hwin
  unfold shouldRotateChain
  simp only [hls, hft, hor, huc, hph, hst, huser, hidle, hwindec]
  cases hui : sig.uiOrigin with
  | none =>
    simp [jsToNullS, jsOrS, truthyS, hh, toPositiveIntQ, toPositiveInt,
      Int.floor_intCast, hidle, hwindec]
  | some u =>
    by_cases hu : u = ""
    · subst hu
      simp [jsToNullS, jsOrS, truthyS, hh, toPositiveIntQ, toPositiveInt,
        Int.floor_intCast, hidle, hwindec]
    · simp [jsToNullS, jsOrS, truthyS, hu, hh, toPositiveIntQ, toPositiveInt,
        Int.floor_intCast, hidle, hwindec]

/-- C3 counterexample: a non-first-turn record (two user messages) replayed
identically 300 000 ms after the first occurrence — more than the 120 000 ms
duplicate window apart — does **not** start a new chain: none of the rotation
conditions fire, and the replay is assigned the same chain id. -/
theorem c3_counterexample :
    chainDuplicatePromptWindowMs < (301000 : ℚ) - 1000 ∧
    shouldRotateChain
      (some (assignChainMetadata c3recFirst none (some "https://ui.example") 1000
        "c-1").2.2)
      (getConversationSignals c3recReplay) 301000 (some "https://ui.example") = false ∧
    (assignChainMetadata c3recReplay
      (some (assignChainMetadata c3recFirst none (some "https://ui.example") 1000
        "c-1").2.2)
      (some "https://ui.example") 301000 "c-2").1 = "c-1" := by
  have hstate : (assignChainMetadata c3recFirst none (some "https://ui.example") 1000
      "c-1").2.2 =
      { chain_id := some "c-1", turn_number := some 1, last_seen_ms := some 1000,
        last_user_count := some 2, last_messages_count := some 4,
        last_prompt_hash := some "h", ui_origin := some "https://ui.example",
        endpoint := none } := by decide
  have hsig : getConversationSignals c3recReplay =
      { userCount := some 2, assistantCount := 1, toolCount := 0,
        messagesCount := some 4, promptHash := some "h",
        uiOrigin := some "https://ui.example", endpoint := none } := by decide
  have h1 : (301000 : ℚ) - 1000 = 300000 := by norm_num
  have h2 : chainStateIdleResetMs = 1800000 := by
    unfold chainStateIdleResetMs; norm_num
  have h3 : chainDuplicatePromptWindowMs = 120000 := by
    unfold chainDuplicatePromptWindowMs; norm_num
  have hrot : shouldRotateChain
      (some { chain_id := some "c-1", turn_number := some 1,
              last_seen_ms := some 1000, last_user_count := some 2,
              last_messages_count := some 4, last_prompt_hash := some "h",
              ui_origin := some "https://ui.example", endpoint := none })
      { userCount := some 2, assistantCount := 1, toolCount := 0,
        messagesCount := some 4, promptHash := some "h",
        uiOrigin := some "https://ui.example", endpoint := none }
      301000 (some "https://ui.example") = false := by
    simp only [shouldRotateChain, h1, h2, h3]
    decide
  refine ⟨by rw [h3]; norm_num, ?_, ?_⟩
  · rw [hstate, hsig]
    exact hrot
  · have hts : c3recReplay.captured_at_ms.getD 301000 = (301000 : ℚ) := rfl
    rw [hstate]
    simp only [assignChainMetadata, hts, hsig, hrot]
    decide

/-- C3 (amended): for a **first-turn** record (user count 1, no assistant/tool
messages, small total message count), replaying it against the state written
for its first occurrence more than the 120 000 ms duplicate window later
always rotates; replaying it within the window with an unchanged non-empty
prompt hash never rotates. (The original claim fails for non-first-turn
records, which continue the chain at any spacing below the idle threshold —
see the counterexample.) -/
theorem c3_duplicate_window (rec : StoredRecord) (st0 : Option ChainState)
    (so : Option String) (fresh : String) (ts1 ts2 ts2' : ℚ)
    (hts : rec.captured_at_ms = some ts1)
    (hft : looksLikeFirstTurn (getConversationSignals rec) = true) :
    (chainDuplicatePromptWindowMs < ts2 - ts1 →
      shouldRotateChain (some (assignChainMetadata rec st0 so ts1 fresh).2.2)
        (getConversationSignals rec) ts2 so = true) ∧
    (∀ h, (getConversationSignals rec).promptHash = some h → h ≠ "" →
      ts2' - ts1 ≤ chainDuplicatePromptWindowMs →
      shouldRotateChain (some (assignChainMetadata rec st0 so ts1 fresh).2.2)
        (getConversationSignals rec) ts2' so = false) := by
  have hstate : (assignChainMetadata rec st0 so ts1 fresh).2.2.last_seen_ms =
      some ts1 := by
    simp [assignChainMetadata, hts]
  constructor
  · intro hgap
    exact shouldRotate_firstTurn_gap _ _ ts2 ts1 so hft hstate hgap
  · intro h hph hh hwin
    refine shouldRotate_firstTurn_duplicate _ _ ts2' ts1 so h hft hstate ?_ ?_ hph hh ?_ hwin
    · simp [assignChainMetadata]
    · cases hx : (getConversationSignals rec).userCount with
      | none => simp [assignChainMetadata, hx]
      | some u => simp [assignChainMetadata, hx]
    · simp [assignChainMetadata, hph]

/-- Witness for the amended C3 at a concrete first-turn record: prompt hash
`"h1"`, first seen at 1000 ms, replayed at 200 000 ms (rotates) and at
50 000 ms (does not rotate). -/
theorem c3_duplicate_window_witness :
    (chainDuplicatePromptWindowMs < (200000 : ℚ) - 1000 →
      shouldRotateChain
        (some (assignChainMetadata
          { captured_at_ms := some 1000
            req := some
              { input_composition := { messages_by_role_count_user := some 1 }
                prompt_identity := { prompt_hash := some "h1" } } }
          none none 1000 "c-1").2.2)
        (getConversationSignals
          { captured_at_ms := some 1000
            req := some
              { input_composition := { messages_by_role_count_user := some 1 }
                prompt_identity := { prompt_hash := some "h1" } } })
        200000 none = true) ∧
    (∀ h,
      (getConversationSignals
        { captured_at_ms := some 1000
          req := some
            { input_composition := { messages_by_role_count_user := some 1 }
              prompt_identity := { prompt_hash := some "h1" } } }).promptHash =
          some h → h ≠ "" →
      (50000 : ℚ) - 1000 ≤ chainDuplicatePromptWindowMs →
      shouldRotateChain
        (some (assignChainMetadata
          { captured_at_ms := some 1000
            req := some
              { input_composition := { messages_by_role_count_user := some 1 }
                prompt_identity := { prompt_hash := some "h1" } } }
          none none 1000 "c-1").2.2)
        (getConversationSignals
          { captured_at_ms := some 1000
            req := some
              { input_composition := { messages_by_role_count_user := some 1 }
                prompt_identity := { prompt_hash := some "h1" } } })
        50000 none = false) :=
  c3_duplicate_window
    { captured_at_ms := some 1000
      req := some
        { input_composition := { messages_by_role_count_user := some 1 }
          prompt_identity := { prompt_hash := some "h1" } } }
    none none "c-1" 1000 200000 50000 rfl (by decide)

/-- C5: within one context the assigned `turn_number` increments by exactly 1
on every record that continues the current chain (reusing its `chain_id`),
and resets to exactly 1 on every rotation, including the first record for the
context; the state the correlator writes back always carries the assigned
chain id and a turn number of at least 1, so the hypothesis on the prior
state is preserved from call to call. -/
theorem c5_turn_number (record : StoredRecord) (state : Option ChainState)
    (so : Option String) (nowMs : ℚ) (fresh : String)
    (hwf : state = none ∨ ∃ st, state = some st ∧
      (∃ n : ℤ, 1 ≤ n ∧ st.turn_number = some ((n : ℤ) : ℚ)) ∧
      (∃ cid, st.chain_id = some cid ∧ cid ≠ ""))
    (hfresh : fresh ≠ "") :
    (shouldRotateChain state (getConversationSignals record)
        (record.captured_at_ms.getD nowMs) so = true →
      (assignChainMetadata record state so nowMs fresh).2.1 = 1 ∧
      (assignChainMetadata record state so nowMs fresh).1 = fresh) ∧
    (shouldRotateChain state (getConversationSignals record)
        (record.captured_at_ms.getD nowMs) so = false →
      ∃ st n cid, state = some st ∧ st.turn_number = some ((n : ℤ) : ℚ) ∧
        st.chain_id = some cid ∧
        (assignChainMetadata record state so nowMs fresh).2.1 = n + 1 ∧
        (assignChainMetadata record state so nowMs fresh).1 = cid) ∧
    (1 ≤ (assignChainMetadata record state so nowMs fresh).2.1 ∧
      (assignChainMetadata record state so nowMs fresh).2.2.turn_number =
        some (((assignChainMetadata record state so nowMs fresh).2.1 : ℤ) : ℚ) ∧
      (assignChainMetadata record state so nowMs fresh).2.2.chain_id =
        some (assignChainMetadata record state so nowMs fresh).1 ∧
      (assignChainMetadata record state so nowMs fresh).1 ≠ "") := by
  cases hrot : shouldRotateChain state (getConversationSignals record)
      (record.captured_at_ms.getD nowMs) so with
  | true =>
    have hm : (assignChainMetadata record state so nowMs fresh).1 = fresh ∧
        (assignChainMetadata record state so nowMs fresh).2.1 = 1 ∧
        (assignChainMetadata record state so nowMs fresh).2.2.turn_number =
          some ((1 : ℤ) : ℚ) ∧
        (assignChainMetadata record state so nowMs fresh).2.2.chain_id =
          some fresh := by
      unfold assignChainMetadata
      simp [hrot, truthyS]
    refine ⟨fun _ => ⟨hm.2.1, hm.1⟩,
      fun hcontra => Bool.noConfusion hcontra,
      ?_, ?_, ?_, ?_⟩
    · rw [hm.2.1]
    · rw [hm.2.2.1, hm.2.1]
    · rw [hm.2.2.2, hm.1]
    · rw [hm.1]; exact hfresh
  | false =>
    rcases hwf with hnone | ⟨st, hstate, ⟨n, hn1, hturn⟩, ⟨cid, hcid, hcne⟩⟩
    · subst hnone
      simp [shouldRotateChain] at hrot
    subst hstate
    have hm : (assignChainMetadata record (some st) so nowMs fresh).1 = cid ∧
        (assignChainMetadata record (some st) so nowMs fresh).2.1 = n + 1 ∧
        (assignChainMetadata record (some st) so nowMs fresh).2.2.turn_number =
          some (((n + 1 : ℤ)) : ℚ) ∧
        (assignChainMetadata record (some st) so nowMs fresh).2.2.chain_id =
          some cid := by
      unfold assignChainMetadata
      rw [show (some st).bind (fun x => x.chain_id) = some cid by simp [hcid]]
      rw [show toPositiveIntQ ((some st).bind fun x => x.turn_number) = some n by
        rw [show (some st).bind (fun x => x.turn_number) = some ((n : ℤ) : ℚ) by
          simp [hturn]]
        exact toPositiveInt_intCast n (by omega)]
      have hmax : max 1 (n + 1) = n + 1 := by omega
      simp [hrot, truthyS, hcne, hmax]
    refine ⟨fun hcontra => Bool.noConfusion hcontra,
      ?_, ?_, ?_, ?_, ?_⟩
    · intro _
      exact ⟨st, n, cid, rfl, hturn, hcid, hm.2.1, hm.1⟩
    · rw [hm.2.1]; omega
    · rw [hm.2.2.1, hm.2.1]
    · rw [hm.2.2.2, hm.1]
    · rw [hm.1]; exact hcne

/-- Witness for C5: the first record of a context (no prior state) rotates
and is assigned turn number 1. -/
theorem c5_turn_number_witness :
    (shouldRotateChain none (getConversationSignals ({} : StoredRecord))
        (({} : StoredRecord).captured_at_ms.getD 0) none = true →
      (assignChainMetadata {} none none 0 "c-1").2.1 = 1 ∧
      (assignChainMetadata {} none none 0 "c-1").1 = "c-1") ∧
    (shouldRotateChain none (getConversationSignals ({} : StoredRecord))
        (({} : StoredRecord).captured_at_ms.getD 0) none = false →
      ∃ st n cid, (none : Option ChainState) = some st ∧
        st.turn_number = some ((n : ℤ) : ℚ) ∧ st.chain_id = some cid ∧
        (assignChainMetadata {} none none 0 "c-1").2.1 = n + 1 ∧
        (assignChainMetadata {} none none 0 "c-1").1 = cid) ∧
    (1 ≤ (assignChainMetadata {} none none 0 "c-1").2.1 ∧
      (assignChainMetadata {} none none 0 "c-1").2.2.turn_number =
        some (((assignChainMetadata {} none none 0 "c-1").2.1 : ℤ) : ℚ) ∧
      (assignChainMetadata {} none none 0 "c-1").2.2.chain_id =
        some (assignChainMetadata {} none none 0 "c-1").1 ∧
      (assignChainMetadata {} none none 0 "c-1").1 ≠ "") :=
  c5_turn_number {} none none 0 "c-1" (Or.inl rfl) (by decide)

end LlamaMetrics
